import Mathlib

/-
Verification of the restate schema registry updater
(crates/admin/src/schema_registry/updater.rs) and of the partition
leadership state machine (crates/worker/src/partition/leadership/mod.rs),
as a shallow embedding in Lean.

Rust HashMap values are embedded as association lists with unique keys;
machine integers (deployment ids, versions, revisions) are embedded as Nat,
with the 64-bit wrap of revision counters made explicit where the source
uses wrapping arithmetic.
-/

set_option maxHeartbeats 1000000
set_option linter.unusedVariables false

namespace Restate

/-- Lookup of the first binding of a key in an association list, mirroring
Rust HashMap get (the maps built by the embedded code keep keys unique). -/
def Map.find? {α β : Type} [DecidableEq α] : List (α × β) → α → Option β
  | [], _ => none
  | (k', v) :: rest, k => if k' = k then some v else Map.find? rest k

/-- Insert mirroring Rust HashMap insert: replace the first binding of the
key in place, otherwise append the new binding. -/
def Map.insert {α β : Type} [DecidableEq α] : List (α × β) → α → β → List (α × β)
  | [], k, v => [(k, v)]
  | (k', v') :: rest, k, v =>
    if k' = k then (k, v) :: rest else (k', v') :: Map.insert rest k v

/-- Removal of every binding of a key, mirroring Rust HashMap remove on
unique-key maps. -/
def Map.erase {α β : Type} [DecidableEq α] : List (α × β) → α → List (α × β)
  | [], _ => []
  | (k', v) :: rest, k =>
    if k' = k then Map.erase rest k else (k', v) :: Map.erase rest k

/-- Key-membership test mirroring Rust HashMap contains_key. -/
def Map.containsKey {α β : Type} [DecidableEq α] (m : List (α × β)) (k : α) : Bool :=
  (Map.find? m k).isSome

/-- Key list of an association list, mirroring HashMap keys iteration. -/
def Map.keys {α β : Type} (m : List (α × β)) : List α :=
  m.map Prod.fst

theorem Map.find?_insert_self {α β : Type} [DecidableEq α]
    (m : List (α × β)) (k : α) (v : β) :
    Map.find? (Map.insert m k v) k = some v := by
  induction m with
  | nil => simp [Map.insert, Map.find?]
  | cons p rest ih =>
    rcases p with ⟨k', v'⟩
    by_cases h : k' = k <;> simp [Map.insert, Map.find?, h, ih]

theorem Map.find?_insert_ne {α β : Type} [DecidableEq α]
    (m : List (α × β)) (k k' : α) (v : β) (h : k' ≠ k) :
    Map.find? (Map.insert m k v) k' = Map.find? m k' := by
  have hk : ¬ (k = k') := Ne.symm h
  induction m with
  | nil => simp [Map.insert, Map.find?, hk]
  | cons p rest ih =>
    rcases p with ⟨k₀, v₀⟩
    by_cases h₀ : k₀ = k
    · subst h₀
      simp [Map.insert, Map.find?, hk]
    · simp [Map.insert, Map.find?, h₀, ih]

theorem Map.find?_erase_self {α β : Type} [DecidableEq α]
    (m : List (α × β)) (k : α) :
    Map.find? (Map.erase m k) k = none := by
  induction m with
  | nil => simp [Map.erase, Map.find?]
  | cons p rest ih =>
    rcases p with ⟨k', v⟩
    by_cases h : k' = k <;> simp [Map.erase, Map.find?, h, ih]

theorem Map.find?_erase_ne {α β : Type} [DecidableEq α]
    (m : List (α × β)) (k k' : α) (h : k' ≠ k) :
    Map.find? (Map.erase m k) k' = Map.find? m k' := by
  have hk : ¬ (k = k') := Ne.symm h
  induction m with
  | nil => simp [Map.erase, Map.find?]
  | cons p rest ih =>
    rcases p with ⟨k₀, v⟩
    by_cases h₀ : k₀ = k
    · subst h₀
      simp [Map.erase, Map.find?, hk, ih]
    · simp [Map.erase, Map.find?, h₀, ih]

theorem Map.insert_self_of_find? {α β : Type} [DecidableEq α]
    (m : List (α × β)) (k : α) (v : β) (h : Map.find? m k = some v) :
    Map.insert m k v = m := by
  induction m with
  | nil => simp [Map.find?] at h
  | cons p rest ih =>
    rcases p with ⟨k', v'⟩
    by_cases h₀ : k' = k
    · subst h₀
      simp [Map.find?] at h
      simp [Map.insert, h]
    · simp [Map.find?, h₀] at h
      simp [Map.insert, h₀, ih h]

theorem List.map_eq_self_of {α : Type} (l : List α) (f : α → α)
    (h : ∀ x ∈ l, f x = x) : l.map f = l := by
  induction l with
  | nil => rfl
  | cons x rest ih =>
    simp only [List.map_cons, h x (by simp)]
    rw [ih (fun y hy => h y (by simp [hy]))]

/-! ### Schema registry data model

Types mirroring restate_schema and restate_schema_api, restricted to the
fields the updater reads or writes. -/

/-- Component type (restate_schema_api). -/
inductive ComponentType
  | service
  | virtualObject
deriving DecidableEq, Repr

/-- Handler type (restate_schema_api). -/
inductive HandlerType
  | exclusive
  | shared
deriving DecidableEq, Repr

/-- Modelled from the spec: handler_ty defaults derive from component_ty
when unspecified (Service gives Shared; VirtualObject gives Exclusive); the
function itself lives in restate_schema_api, outside src. -/
def HandlerType.default_for_component_type : ComponentType → HandlerType
  | .service => .shared
  | .virtualObject => .exclusive

/-- Modelled from the spec: the parse of an input content-type carried out
by an external library, which fails on malformed header text; modelled as
accepting exactly the visible-ASCII strings. -/
def parseContentType (s : String) : Option String :=
  if s.toList.all (fun c => decide (32 ≤ c.toNat) && decide (c.toNat ≤ 126)) then some s else none

/-- Modelled from the spec: HeaderValue parsing from the external http
crate, which fails on malformed header text; modelled as accepting exactly
the visible-ASCII strings. -/
def headerValueFromStr (s : String) : Option String :=
  if s.toList.all (fun c => decide (32 ≤ c.toNat) && decide (c.toNat ≤ 126)) then some s else none

/-- Modelled from the spec: the Default content type of the external schema
API used when the discovery payload names none. -/
def defaultContentType : String := "application/json"

/-- Input validation rule (restate_schema_api invocation_target). -/
inductive InputValidationRule
  | noBodyAndContentType
  | contentType (content_type : String)
  | jsonValue (content_type : String)
deriving DecidableEq, Repr

/-- Input rules (restate_schema_api invocation_target). -/
structure InputRules where
  input_validation_rules : List InputValidationRule
deriving DecidableEq, Repr

/-- Modelled from the spec: Default instance of InputRules used when the
discovery payload carries no input schema. -/
def InputRules.default : InputRules := ⟨[]⟩

/-- Output content-type rule (restate_schema_api invocation_target). -/
inductive OutputContentTypeRule
  | none
  | set (content_type : String) (set_content_type_if_empty : Bool) (has_json_schema : Bool)
deriving DecidableEq, Repr

/-- Output rules (restate_schema_api invocation_target). -/
structure OutputRules where
  content_type_rule : OutputContentTypeRule
deriving DecidableEq, Repr

/-- Modelled from the spec: Default instance of OutputRules used when the
discovery payload carries no output schema. -/
def OutputRules.default : OutputRules := ⟨OutputContentTypeRule.none⟩

/-- Invocation target metadata (restate_schema_api invocation_target). -/
structure InvocationTargetMetadata where
  public : Bool
  component_ty : ComponentType
  handler_ty : HandlerType
  input_rules : InputRules
  output_rules : OutputRules
deriving DecidableEq, Repr

/-- Handler schemas (restate_schema component). -/
structure HandlerSchemas where
  target_meta : InvocationTargetMetadata
deriving DecidableEq, Repr

/-- Component location (restate_schema component). Deployment ids are
embedded as Nat. -/
structure ComponentLocation where
  latest_deployment : Nat
  public : Bool
deriving DecidableEq, Repr

/-- Component schemas (restate_schema component). -/
structure ComponentSchemas where
  revision : Nat
  handlers : List (String × HandlerSchemas)
  ty : ComponentType
  location : ComponentLocation
deriving DecidableEq, Repr

/-- Modelled from the spec: opaque endpoint metadata of a deployment; the
field ty holds the endpoint whose normalized address defines deployment
equivalence, embedded as a plain string. -/
structure DeploymentMetadata where
  ty : String
deriving DecidableEq, Repr

/-- Modelled from the spec: the (name, revision) snapshot entry stored in a
DeploymentRecord; the source type carries further fields that the updater
never reads. -/
structure ComponentMetadata where
  name : String
  revision : Nat
deriving DecidableEq, Repr

/-- Modelled from the spec: as_component_metadata takes the snapshot of a
component stored inside the deployment record. -/
def ComponentSchemas.as_component_metadata (c : ComponentSchemas) (name : String) :
    ComponentMetadata :=
  ⟨name, c.revision⟩

/-- Deployment schemas record (restate_schema deployment). -/
structure DeploymentSchemas where
  components : List ComponentMetadata
  metadata : DeploymentMetadata
deriving DecidableEq, Repr

/-- Modelled from the spec: the ordering key format of a Kafka source,
which the parser hard-codes to Default. -/
inductive OrderingKeyFormat
  | default
deriving DecidableEq, Repr

/-- Subscription source (restate_schema_api subscription). -/
inductive Source
  | kafka (cluster : String) (topic : String) (ordering_key_format : OrderingKeyFormat)
deriving DecidableEq, Repr

/-- Event receiver component type (restate_schema_api subscription). -/
inductive EventReceiverComponentType
  | virtualObject (ordering_key_is_key : Bool)
  | service
deriving DecidableEq, Repr

/-- Subscription sink (restate_schema_api subscription). -/
inductive Sink
  | component (name : String) (handler : String) (ty : EventReceiverComponentType)
deriving DecidableEq, Repr

/-- Subscription (restate_schema_api subscription); subscription ids are
embedded as Nat. -/
structure Subscription where
  id : Nat
  source : Source
  sink : Sink
  metadata : List (String × String)
deriving DecidableEq, Repr

/-- Versioned schema catalog (restate_schema SchemaInformation). -/
structure SchemaInformation where
  version : Nat
  deployments : List (Nat × DeploymentSchemas)
  components : List (String × ComponentSchemas)
  subscriptions : List (Nat × Subscription)
deriving DecidableEq, Repr

/-- Modelled from the spec: increment_version bumps the monotonic version
counter by one; the function lives in restate_schema, outside src. -/
def SchemaInformation.increment_version (s : SchemaInformation) : SchemaInformation :=
  { s with version := s.version + 1 }

/-- Modelled from the spec: lookup of an existing deployment by its id,
from restate_schema, outside src. -/
def SchemaInformation.find_existing_deployment_by_id (s : SchemaInformation) (id : Nat) :
    Option (Nat × DeploymentSchemas) :=
  (Map.find? s.deployments id).map (fun d => (id, d))

/-- Modelled from the spec: lookup of an existing deployment whose endpoint
is equivalent to the given metadata (equivalence of normalized addresses,
embedded as string equality), from restate_schema, outside src. -/
def SchemaInformation.find_existing_deployment_by_endpoint (s : SchemaInformation)
    (ty : String) : Option (Nat × DeploymentSchemas) :=
  s.deployments.find? (fun p => decide (p.2.metadata.ty = ty))

/-! ### Error taxonomy (schema_registry error module) -/

/-- Deployment errors. -/
inductive DeploymentError
  | incorrectId (requested : Nat) (existing : Nat)
deriving DecidableEq, Repr

/-- Component errors. The BadInput and BadOutput constructors carry the raw
text whose parse failed in place of the external parse-error value. -/
inductive ComponentError
  | removedHandlers (name : String) (handlers : List String)
  | differentType (name : String)
  | badInputContentType (handler : String) (raw : String)
  | badOutputContentType (raw : String)
deriving DecidableEq, Repr

/-- Parsed URI as handed to add_subscription by the callers; mirrors the
scheme, authority and path accessors of http Uri. -/
structure Uri where
  scheme : Option String
  authority : Option String
  path : String
deriving DecidableEq, Repr

/-- Subscription errors. Validation carries the validator error text. -/
inductive SubscriptionError
  | invalidSourceScheme (uri : Uri)
  | invalidSinkScheme (uri : Uri)
  | invalidKafkaSourceAuthority (uri : Uri)
  | invalidComponentSinkAuthority (uri : Uri)
  | sinkComponentNotFound (uri : Uri)
  | validation (msg : String)
deriving DecidableEq, Repr

/-- Schema errors. The invalidComponentName constructor is modelled from
the spec: it stands for the error of the ComponentName validation, whose
code lives outside src. -/
inductive SchemaError
  | override (resource : String)
  | deployment (e : DeploymentError)
  | component (e : ComponentError)
  | subscription (e : SubscriptionError)
  | invalidComponentName (name : String)
deriving DecidableEq, Repr

/-! ### Discovery schema (restate_service_protocol discovery) -/

/-- Discovery component type (schema module of service discovery). -/
inductive DiscoveryComponentType
  | service
  | virtualObject
deriving DecidableEq, Repr

/-- Discovery handler type (schema module of service discovery). -/
inductive DiscoveryHandlerType
  | exclusive
  | shared
deriving DecidableEq, Repr

/-- Conversion from the discovery component type, mirroring
ComponentType::from. -/
def ComponentType.fromDiscovery : DiscoveryComponentType → ComponentType
  | .service => .service
  | .virtualObject => .virtualObject

/-- Discovery input payload; json_schema keeps only the presence of the
schema value, which is all the updater reads. -/
structure InputPayload where
  required : Option Bool
  content_type : Option String
  json_schema : Option Unit
deriving DecidableEq, Repr

/-- Discovery output payload. -/
structure OutputPayload where
  content_type : Option String
  set_content_type_if_empty : Option Bool
  json_schema : Option Unit
deriving DecidableEq, Repr

/-- Discovery handler. -/
structure DiscoveryHandler where
  name : String
  handler_type : Option DiscoveryHandlerType
  input : Option InputPayload
  output : Option OutputPayload
deriving DecidableEq, Repr

/-- Discovery component. -/
structure DiscoveryComponent where
  component_type : DiscoveryComponentType
  fully_qualified_component_name : String
  handlers : List DiscoveryHandler
deriving DecidableEq, Repr

/-- Intermediate handler metadata computed during add_deployment. -/
structure DiscoveredHandlerMetadata where
  name : String
  ty : HandlerType
  input : InputRules
  output : OutputRules
deriving DecidableEq, Repr

/-- Input rules derived from the discovery input payload
(DiscoveredHandlerMetadata::input_rules_from_schema). -/
def DiscoveredHandlerMetadata.input_rules_from_schema (handler_name : String)
    (s : InputPayload) : Except ComponentError InputRules :=
  let required := s.required.getD false
  let rules0 : List InputValidationRule :=
    if required then [] else [InputValidationRule.noBodyAndContentType]
  match s.content_type with
  | none =>
    let rule := if s.json_schema.isSome then InputValidationRule.jsonValue defaultContentType
      else InputValidationRule.contentType defaultContentType
    .ok ⟨rules0 ++ [rule]⟩
  | some raw =>
    match parseContentType raw with
    | none => .error (.badInputContentType handler_name raw)
    | some ct =>
      let rule := if s.json_schema.isSome then InputValidationRule.jsonValue ct
        else InputValidationRule.contentType ct
      .ok ⟨rules0 ++ [rule]⟩

/-- Output rules derived from the discovery output payload
(DiscoveredHandlerMetadata::output_rules_from_schema). -/
def DiscoveredHandlerMetadata.output_rules_from_schema (s : OutputPayload) :
    Except ComponentError OutputRules :=
  match s.content_type with
  | some ct =>
    match headerValueFromStr ct with
    | none => .error (.badOutputContentType ct)
    | some v =>
      .ok ⟨OutputContentTypeRule.set v (s.set_content_type_if_empty.getD false)
        s.json_schema.isSome⟩
  | none => .ok ⟨OutputContentTypeRule.none⟩

/-- Handler metadata derived from a discovery handler
(DiscoveredHandlerMetadata::from_schema). -/
def DiscoveredHandlerMetadata.from_schema (component_type : ComponentType)
    (handler : DiscoveryHandler) : Except ComponentError DiscoveredHandlerMetadata := do
  let handler_type : HandlerType :=
    match handler.handler_type with
    | none => HandlerType.default_for_component_type component_type
    | some .exclusive => .exclusive
    | some .shared => .shared
  let input ← match handler.input with
    | none => pure InputRules.default
    | some s => DiscoveredHandlerMetadata.input_rules_from_schema handler.name s
  let output ← match handler.output with
    | none => pure OutputRules.default
    | some s => DiscoveredHandlerMetadata.output_rules_from_schema s
  pure ⟨handler.name, handler_type, input, output⟩

/-- Handler map derived from the discovered handler metadata
(DiscoveredHandlerMetadata::compute_handlers); collecting into a HashMap is
embedded as a left fold of inserts, so a later duplicate name wins. -/
def DiscoveredHandlerMetadata.compute_handlers (component_ty : ComponentType)
    (handlers : List DiscoveredHandlerMetadata) : List (String × HandlerSchemas) :=
  handlers.foldl
    (fun m handler =>
      Map.insert m handler.name
        ⟨⟨true, component_ty, handler.ty, handler.input, handler.output⟩⟩)
    []

/-! ### SchemaUpdater -/

/-- Schema updater: the borrowed SchemaInformation plus the modified flag. -/
structure SchemaUpdater where
  schema_information : SchemaInformation
  modified : Bool
deriving DecidableEq, Repr

/-- Construction mirroring the From SchemaInformation instance: the flag
starts cleared. -/
def SchemaUpdater.fromInfo (schema_information : SchemaInformation) : SchemaUpdater :=
  ⟨schema_information, false⟩

/-- SchemaUpdater::into_inner, also reachable as finalize: bump the version
exactly when the session modified the catalog. -/
def SchemaUpdater.into_inner (u : SchemaUpdater) : SchemaInformation :=
  if u.modified then u.schema_information.increment_version else u.schema_information

/-- Modelled from the spec: ComponentName::try_from validates the fully
qualified component name (the validation lives outside src); modelled as
requiring a nonempty name. -/
def ComponentName.try_from (s : String) : Except SchemaError String :=
  if s = "" then .error (.invalidComponentName s) else .ok s

/-- Validation of every proposed component name, in order, stopping at the
first failure: the map step of the collect in add_deployment. -/
def validateComponentNames : List DiscoveryComponent →
    Except SchemaError (List (String × DiscoveryComponent))
  | [] => .ok []
  | c :: rest =>
    match ComponentName.try_from c.fully_qualified_component_name with
    | .error e => .error e
    | .ok name =>
      match validateComponentNames rest with
      | .error e => .error e
      | .ok tail => .ok ((name, c) :: tail)

/-- Collect of the proposed components into a map keyed by validated name,
mirroring the HashMap collect in add_deployment: a later duplicate name
overwrites an earlier one. -/
def parseProposedComponents (components : List DiscoveryComponent) :
    Except SchemaError (List (String × DiscoveryComponent)) :=
  match validateComponentNames components with
  | .error e => .error e
  | .ok pairs => .ok (pairs.foldl (fun m p => Map.insert m p.1 p.2) [])

/-- Wrap-around of the wrapping_add on 64-bit revision counters. -/
def wrappingAdd1 (r : Nat) : Nat := (r + 1) % (2 ^ 64)

/-- Handler metadata of every discovery handler of one component, in order,
stopping at the first failure: the collect feeding compute_handlers. -/
def computeHandlerMetadata (component_type : ComponentType) :
    List DiscoveryHandler → Except SchemaError (List DiscoveredHandlerMetadata)
  | [] => .ok []
  | h :: rest =>
    match DiscoveredHandlerMetadata.from_schema component_type h with
    | .error e => .error (SchemaError.component e)
    | .ok m =>
      match computeHandlerMetadata component_type rest with
      | .error e => .error e
      | .ok tail => .ok (m :: tail)

/-- Computation of the new ComponentSchemas of one proposed component: the
body of the per-component loop of add_deployment. -/
def computeComponentSchema (u : SchemaUpdater) (deployment_id : Nat) (force : Bool)
    (component_name : String) (component : DiscoveryComponent) :
    Except SchemaError ComponentSchemas :=
  match computeHandlerMetadata (ComponentType.fromDiscovery component.component_type)
      component.handlers with
  | .error e => .error e
  | .ok metas =>
    match Map.find? u.schema_information.components component_name with
    | some existing_component =>
      if ((Map.keys existing_component.handlers).filter
            (fun name => ! Map.containsKey
              (DiscoveredHandlerMetadata.compute_handlers
                (ComponentType.fromDiscovery component.component_type) metas) name)) ≠ [] ∧
          force = false then
        .error (.component (.removedHandlers component_name
          ((Map.keys existing_component.handlers).filter
            (fun name => ! Map.containsKey
              (DiscoveredHandlerMetadata.compute_handlers
                (ComponentType.fromDiscovery component.component_type) metas) name))))
      else if existing_component.ty ≠ ComponentType.fromDiscovery component.component_type ∧
          force = false then
        .error (.component (.differentType component_name))
      else
        .ok { existing_component with
          revision := wrappingAdd1 existing_component.revision,
          ty := ComponentType.fromDiscovery component.component_type,
          handlers := DiscoveredHandlerMetadata.compute_handlers
            (ComponentType.fromDiscovery component.component_type) metas,
          location := { existing_component.location with
            latest_deployment := deployment_id } }
    | none =>
      .ok { revision := 1,
            handlers := DiscoveredHandlerMetadata.compute_handlers
              (ComponentType.fromDiscovery component.component_type) metas,
            ty := ComponentType.fromDiscovery component.component_type,
            location := { latest_deployment := deployment_id, public := true } }

/-- Per-component loop of add_deployment over the whole proposal, in
proposal order, stopping at the first failure. -/
def computeComponentsToAdd (u : SchemaUpdater) (deployment_id : Nat) (force : Bool) :
    List (String × DiscoveryComponent) →
    Except SchemaError (List (String × ComponentSchemas))
  | [] => .ok []
  | (name, c) :: rest =>
    match computeComponentSchema u deployment_id force name c with
    | .error e => .error e
    | .ok cs =>
      match computeComponentsToAdd u deployment_id force rest with
      | .error e => .error e
      | .ok tail => .ok ((name, cs) :: tail)

/-- Tail of add_deployment after the deployment id and the components to
remove have been fixed: compute the new component schemas, apply removals,
apply insertions, insert the DeploymentRecord, set the modified flag. -/
def SchemaUpdater.finish_add_deployment (u : SchemaUpdater) (deployment_id : Nat)
    (deployment_metadata : DeploymentMetadata)
    (proposed_components : List (String × DiscoveryComponent))
    (components_to_remove : List String) (force : Bool) :
    SchemaUpdater × Except SchemaError Nat :=
  match computeComponentsToAdd u deployment_id force proposed_components with
  | .error e => (u, .error e)
  | .ok components_to_add =>
    let si := u.schema_information
    let comps1 := components_to_remove.foldl (fun m name => Map.erase m name) si.components
    let comps2 := components_to_add.foldl (fun m p => Map.insert m p.1 p.2) comps1
    let components_metadata := components_to_add.map
      (fun p => ComponentSchemas.as_component_metadata p.2 p.1)
    ({ schema_information :=
        { si with
          components := comps2,
          deployments := Map.insert si.deployments deployment_id
            ⟨components_metadata, deployment_metadata⟩ },
       modified := true },
     .ok deployment_id)

/-- Branch of add_deployment taken once an existing deployment has been
resolved and the requested id conflict has been excluded: force reuses the
existing id and schedules the components absent from the new proposal for
removal, no force fails with Override. -/
def SchemaUpdater.add_deployment_resolved (u : SchemaUpdater) (existing_deployment_id : Nat)
    (existing_deployment : DeploymentSchemas) (deployment_metadata : DeploymentMetadata)
    (proposed_components : List (String × DiscoveryComponent)) (force : Bool) :
    SchemaUpdater × Except SchemaError Nat :=
  if force then
    let components_to_remove := ((existing_deployment.components.filter
      (fun cm => ! Map.containsKey proposed_components cm.name)).map
      (fun cm => cm.name))
    u.finish_add_deployment existing_deployment_id deployment_metadata
      proposed_components components_to_remove force
  else
    (u, .error (.override ("deployment with id " ++ toString existing_deployment_id)))

/-- Resolution of an existing deployment in add_deployment: lookup by the
requested id first, otherwise by endpoint equivalence. -/
def resolveExistingDeployment (u : SchemaUpdater) (requested_deployment_id : Option Nat)
    (ty : String) : Option (Nat × DeploymentSchemas) :=
  (requested_deployment_id.bind
    (fun id => u.schema_information.find_existing_deployment_by_id id)).orElse
    (fun _ => u.schema_information.find_existing_deployment_by_endpoint ty)

/-- SchemaUpdater::add_deployment. The fresh_id argument stands for the
DeploymentId::new generator consulted when no id is requested and no
existing deployment is resolved. -/
def SchemaUpdater.add_deployment (u : SchemaUpdater) (requested_deployment_id : Option Nat)
    (deployment_metadata : DeploymentMetadata) (components : List DiscoveryComponent)
    (force : Bool) (fresh_id : Nat) : SchemaUpdater × Except SchemaError Nat :=
  match parseProposedComponents components with
  | .error e => (u, .error e)
  | .ok proposed_components =>
    match resolveExistingDeployment u requested_deployment_id deployment_metadata.ty with
    | some (existing_deployment_id, existing_deployment) =>
      match requested_deployment_id with
      | some dp =>
        if dp = existing_deployment_id then
          u.add_deployment_resolved existing_deployment_id existing_deployment
            deployment_metadata proposed_components force
        else
          (u, .error (.deployment (.incorrectId dp existing_deployment_id)))
      | none =>
        u.add_deployment_resolved existing_deployment_id existing_deployment
          deployment_metadata proposed_components force
    | none =>
      u.finish_add_deployment (requested_deployment_id.getD fresh_id) deployment_metadata
        proposed_components [] force

/-- Per-snapshot body of the loop of remove_deployment: the component is
deleted only when it is still present with exactly the snapshotted
revision (the occupied-entry check of the source). -/
def removeDeploymentComponentStep (comps : List (String × ComponentSchemas))
    (cm : ComponentMetadata) : List (String × ComponentSchemas) :=
  match Map.find? comps cm.name with
  | some entry => if entry.revision = cm.revision then Map.erase comps cm.name else comps
  | none => comps

/-- SchemaUpdater::remove_deployment. -/
def SchemaUpdater.remove_deployment (u : SchemaUpdater) (deployment_id : Nat) :
    SchemaUpdater :=
  match Map.find? u.schema_information.deployments deployment_id with
  | none => u
  | some deployment =>
    { schema_information :=
        { u.schema_information with
          deployments := Map.erase u.schema_information.deployments deployment_id,
          components := deployment.components.foldl removeDeploymentComponentStep
            u.schema_information.components },
      modified := true }

/-- Scheme string of a Kafka source URI. -/
def kafkaScheme : String := "kafka"

/-- Scheme string of a component sink URI. -/
def componentScheme : String := "component"

/-- Source-URI parse block of add_subscription: only the lowercase kafka
scheme is accepted, the authority is the cluster, the topic is the path
with its first character removed. -/
def parseKafkaSource (source : Uri) : Except SchemaError Source :=
  match source.scheme with
  | some sch =>
    if sch = kafkaScheme then
      match source.authority with
      | none => .error (.subscription (.invalidKafkaSourceAuthority source))
      | some cluster_name =>
        .ok (Source.kafka cluster_name (source.path.drop 1) .default)
    else .error (.subscription (.invalidSourceScheme source))
  | none => .error (.subscription (.invalidSourceScheme source))

/-- Sink-URI parse block of add_subscription: only the component scheme is
accepted, the authority names a component that must exist, the path with
its first character removed names a handler that must exist in it, and the
receiver type is derived from the component type. -/
def parseComponentSink (u : SchemaUpdater) (sink : Uri) : Except SchemaError Sink :=
  match sink.scheme with
  | some sch =>
    if sch = componentScheme then
      match sink.authority with
      | none => .error (.subscription (.invalidComponentSinkAuthority sink))
      | some component_name =>
        match Map.find? u.schema_information.components component_name with
        | none => .error (.subscription (.sinkComponentNotFound sink))
        | some component_schemas =>
          if Map.containsKey component_schemas.handlers (sink.path.drop 1) then
            .ok (Sink.component component_name (sink.path.drop 1)
              (match component_schemas.ty with
               | .virtualObject => EventReceiverComponentType.virtualObject false
               | .service => EventReceiverComponentType.service))
          else .error (.subscription (.sinkComponentNotFound sink))
    else .error (.subscription (.invalidSinkScheme sink))
  | none => .error (.subscription (.invalidSinkScheme sink))

/-- SchemaUpdater::add_subscription. The validator argument is the external
SubscriptionValidator collaborator; the default subscription id used when
none is supplied is embedded as the explicit default_id argument. -/
def SchemaUpdater.add_subscription (u : SchemaUpdater) (id : Option Nat)
    (source : Uri) (sink : Uri) (metadata : Option (List (String × String)))
    (validator : Subscription → Except String Subscription) (default_id : Nat) :
    SchemaUpdater × Except SchemaError Nat :=
  if Map.containsKey u.schema_information.subscriptions (id.getD default_id) then
    (u, .error (.override ("subscription with id " ++ toString (id.getD default_id))))
  else
    match parseKafkaSource source with
    | .error e => (u, .error e)
    | .ok parsed_source =>
      match parseComponentSink u sink with
      | .error e => (u, .error e)
      | .ok parsed_sink =>
        match validator ⟨id.getD default_id, parsed_source, parsed_sink, metadata.getD []⟩ with
        | .error e => (u, .error (.subscription (.validation e)))
        | .ok subscription =>
          ({ schema_information :=
              { u.schema_information with
                subscriptions := Map.insert u.schema_information.subscriptions
                  (id.getD default_id) subscription },
             modified := true },
           .ok (id.getD default_id))

/-- SchemaUpdater::remove_subscription. -/
def SchemaUpdater.remove_subscription (u : SchemaUpdater) (subscription_id : Nat) :
    SchemaUpdater :=
  if Map.containsKey u.schema_information.subscriptions subscription_id then
    { schema_information :=
        { u.schema_information with
          subscriptions := Map.erase u.schema_information.subscriptions subscription_id },
      modified := true }
  else u

/-- SchemaUpdater::modify_component. The in-place mutation through get_mut
is embedded as the re-insertion of the updated component value. -/
def SchemaUpdater.modify_component (u : SchemaUpdater) (component_name : String)
    (public : Bool) : SchemaUpdater :=
  match Map.find? u.schema_information.components component_name with
  | none => u
  | some schemas =>
    let location_changed := decide (schemas.location.public ≠ public)
    let new_location :=
      if schemas.location.public ≠ public then { schemas.location with public := public }
      else schemas.location
    let handlers_changed := schemas.handlers.any
      (fun p => decide (p.2.target_meta.public ≠ public))
    let new_handlers := schemas.handlers.map
      (fun p =>
        if p.2.target_meta.public ≠ public then
          (p.1, ⟨{ p.2.target_meta with public := public }⟩)
        else p)
    let new_schemas := { schemas with location := new_location, handlers := new_handlers }
    { schema_information :=
        { u.schema_information with
          components := Map.insert u.schema_information.components component_name
            new_schemas },
      modified := u.modified || location_changed || handlers_changed }

/-- One mutator call of an updater session. -/
inductive Op where
  | addDeployment (requested : Option Nat) (meta : DeploymentMetadata)
      (components : List DiscoveryComponent) (force : Bool) (fresh_id : Nat)
  | removeDeployment (id : Nat)
  | addSubscription (id : Option Nat) (source : Uri) (sink : Uri)
      (metadata : Option (List (String × String)))
      (validator : Subscription → Except String Subscription) (default_id : Nat)
  | removeSubscription (id : Nat)
  | modifyComponent (name : String) (public : Bool)

/-- Application of one mutator call to the updater, discarding the value
the mutator returns. -/
def applyOp (u : SchemaUpdater) : Op → SchemaUpdater
  | .addDeployment r m c f fid => (u.add_deployment r m c f fid).1
  | .removeDeployment id => u.remove_deployment id
  | .addSubscription i s k md v d => (u.add_subscription i s k md v d).1
  | .removeSubscription id => u.remove_subscription id
  | .modifyComponent n p => u.modify_component n p

/-! ### Frame lemmas shared by the claims -/

theorem finish_add_deployment_spec (u : SchemaUpdater) (did : Nat)
    (meta : DeploymentMetadata) (props : List (String × DiscoveryComponent))
    (toRemove : List String) (force : Bool) :
    ((u.finish_add_deployment did meta props toRemove force).1 = u ∧
      ∃ e, (u.finish_add_deployment did meta props toRemove force).2 = Except.error e) ∨
    ((u.finish_add_deployment did meta props toRemove force).1.modified = true ∧
      (u.finish_add_deployment did meta props toRemove force).1.schema_information.version =
        u.schema_information.version ∧
      (u.finish_add_deployment did meta props toRemove force).1.schema_information.subscriptions =
        u.schema_information.subscriptions ∧
      (u.finish_add_deployment did meta props toRemove force).2 = Except.ok did) := by
  unfold SchemaUpdater.finish_add_deployment
  split
  · exact Or.inl ⟨rfl, _, rfl⟩
  · exact Or.inr ⟨rfl, rfl, rfl, rfl⟩

theorem add_deployment_resolved_spec (u : SchemaUpdater) (eid : Nat)
    (edep : DeploymentSchemas) (meta : DeploymentMetadata)
    (props : List (String × DiscoveryComponent)) (force : Bool) :
    ((u.add_deployment_resolved eid edep meta props force).1 = u ∧
      ∃ e, (u.add_deployment_resolved eid edep meta props force).2 = Except.error e) ∨
    ((u.add_deployment_resolved eid edep meta props force).1.modified = true ∧
      (u.add_deployment_resolved eid edep meta props force).1.schema_information.version =
        u.schema_information.version ∧
      (u.add_deployment_resolved eid edep meta props force).1.schema_information.subscriptions =
        u.schema_information.subscriptions ∧
      (u.add_deployment_resolved eid edep meta props force).2 = Except.ok eid) := by
  unfold SchemaUpdater.add_deployment_resolved
  split
  · exact finish_add_deployment_spec u eid meta props _ force
  · exact Or.inl ⟨rfl, _, rfl⟩

theorem add_deployment_spec (u : SchemaUpdater) (r : Option Nat)
    (meta : DeploymentMetadata) (comps : List DiscoveryComponent) (force : Bool)
    (fid : Nat) :
    ((u.add_deployment r meta comps force fid).1 = u ∧
      ∃ e, (u.add_deployment r meta comps force fid).2 = Except.error e) ∨
    ((u.add_deployment r meta comps force fid).1.modified = true ∧
      (u.add_deployment r meta comps force fid).1.schema_information.version =
        u.schema_information.version ∧
      (u.add_deployment r meta comps force fid).1.schema_information.subscriptions =
        u.schema_information.subscriptions ∧
      ∃ d, (u.add_deployment r meta comps force fid).2 = Except.ok d) := by
  unfold SchemaUpdater.add_deployment
  split
  · exact Or.inl ⟨rfl, _, rfl⟩
  · split
    · split
      · split
        · rcases add_deployment_resolved_spec u _ _ meta _ force with h | h
          · exact Or.inl h
          · exact Or.inr ⟨h.1, h.2.1, h.2.2.1, _, h.2.2.2⟩
        · exact Or.inl ⟨rfl, _, rfl⟩
      · rcases add_deployment_resolved_spec u _ _ meta _ force with h | h
        · exact Or.inl h
        · exact Or.inr ⟨h.1, h.2.1, h.2.2.1, _, h.2.2.2⟩
    · rcases finish_add_deployment_spec u _ meta _ [] force with h | h
      · exact Or.inl h
      · exact Or.inr ⟨h.1, h.2.1, h.2.2.1, _, h.2.2.2⟩

theorem add_subscription_spec (u : SchemaUpdater) (id : Option Nat) (src snk : Uri)
    (md : Option (List (String × String)))
    (v : Subscription → Except String Subscription) (d : Nat) :
    ((u.add_subscription id src snk md v d).1 = u ∧
      ∃ e, (u.add_subscription id src snk md v d).2 = Except.error e) ∨
    ((u.add_subscription id src snk md v d).1.modified = true ∧
      (u.add_subscription id src snk md v d).1.schema_information.version =
        u.schema_information.version ∧
      (u.add_subscription id src snk md v d).1.schema_information.deployments =
        u.schema_information.deployments ∧
      ∃ i, (u.add_subscription id src snk md v d).2 = Except.ok i) := by
  unfold SchemaUpdater.add_subscription
  split
  · exact Or.inl ⟨rfl, _, rfl⟩
  · split
    · exact Or.inl ⟨rfl, _, rfl⟩
    · split
      · exact Or.inl ⟨rfl, _, rfl⟩
      · split
        · exact Or.inl ⟨rfl, _, rfl⟩
        · exact Or.inr ⟨rfl, rfl, rfl, _, rfl⟩

theorem remove_deployment_spec (u : SchemaUpdater) (d : Nat) :
    (u.remove_deployment d = u ∧
      Map.find? u.schema_information.deployments d = none) ∨
    ((u.remove_deployment d).modified = true ∧
      (u.remove_deployment d).schema_information.version = u.schema_information.version ∧
      (u.remove_deployment d).schema_information.subscriptions =
        u.schema_information.subscriptions ∧
      (Map.find? u.schema_information.deployments d).isSome = true) := by
  unfold SchemaUpdater.remove_deployment
  split
  · rename_i h
    exact Or.inl ⟨rfl, h⟩
  · rename_i dep h
    exact Or.inr ⟨rfl, rfl, rfl, by simp [h]⟩

theorem remove_subscription_spec (u : SchemaUpdater) (i : Nat) :
    u.remove_subscription i = u ∨
    ((u.remove_subscription i).modified = true ∧
      (u.remove_subscription i).schema_information.version = u.schema_information.version) := by
  unfold SchemaUpdater.remove_subscription
  split
  · exact Or.inr ⟨rfl, rfl⟩
  · exact Or.inl rfl

theorem modify_component_version (u : SchemaUpdater) (n : String) (p : Bool) :
    (u.modify_component n p).schema_information.version = u.schema_information.version := by
  unfold SchemaUpdater.modify_component
  split <;> rfl

theorem modify_component_mono (u : SchemaUpdater) (n : String) (p : Bool)
    (h : u.modified = true) : (u.modify_component n p).modified = true := by
  unfold SchemaUpdater.modify_component
  split
  · exact h
  · simp [h]

theorem modify_component_noop (u : SchemaUpdater) (n : String) (p : Bool)
    (h : (u.modify_component n p).modified = false) : u.modify_component n p = u := by
  unfold SchemaUpdater.modify_component at h ⊢
  split at h
  · rfl
  · rename_i schemas hfind
    simp only [Bool.or_eq_false_iff, decide_eq_false_iff_not, not_not,
      List.any_eq_false, decide_eq_false_iff_not] at h
    obtain ⟨⟨hm, hloc⟩, hhands⟩ := h
    have hnot : ¬ schemas.location.public ≠ p := by simp [hloc]
    have hmap : schemas.handlers.map
        (fun q =>
          if q.2.target_meta.public ≠ p then
            (q.1, ⟨{ q.2.target_meta with public := p }⟩)
          else q) = schemas.handlers := by
      apply List.map_eq_self_of
      intro x hx
      have hx2 := hhands x hx
      simp only [decide_eq_true_eq] at hx2
      simp [hx2]
    have hany : (schemas.handlers.any fun q => decide (q.2.target_meta.public ≠ p)) = false := by
      simp only [List.any_eq_false]
      exact hhands
    have hsch : ComponentSchemas.mk schemas.revision schemas.handlers schemas.ty
        schemas.location = schemas := rfl
    have hdec : decide (schemas.location.public ≠ p) = false := by simp [hloc]
    rw [if_neg hnot]
    simp only [hmap, hany, hdec, hsch, Bool.or_false,
      Map.insert_self_of_find? _ _ _ hfind]

theorem applyOp_version (u : SchemaUpdater) (op : Op) :
    (applyOp u op).schema_information.version = u.schema_information.version := by
  cases op with
  | addDeployment r m c f fid =>
    rcases add_deployment_spec u r m c f fid with h | h
    · rw [applyOp, h.1]
    · exact h.2.1
  | removeDeployment id =>
    rcases remove_deployment_spec u id with h | h
    · rw [applyOp, h.1]
    · exact h.2.1
  | addSubscription i s k md v d =>
    rcases add_subscription_spec u i s k md v d with h | h
    · rw [applyOp, h.1]
    · exact h.2.1
  | removeSubscription id =>
    rcases remove_subscription_spec u id with h | h
    · rw [applyOp, h]
    · exact h.2
  | modifyComponent n p => exact modify_component_version u n p

theorem applyOp_noop (u : SchemaUpdater) (op : Op)
    (h : (applyOp u op).modified = false) : applyOp u op = u := by
  cases op with
  | addDeployment r m c f fid =>
    rcases add_deployment_spec u r m c f fid with hs | hs
    · rw [applyOp, hs.1]
    · rw [applyOp] at h
      rw [hs.1] at h
      exact absurd h (by simp)
  | removeDeployment id =>
    rcases remove_deployment_spec u id with hs | hs
    · rw [applyOp, hs.1]
    · rw [applyOp] at h
      rw [hs.1] at h
      exact absurd h (by simp)
  | addSubscription i s k md v d =>
    rcases add_subscription_spec u i s k md v d with hs | hs
    · rw [applyOp, hs.1]
    · rw [applyOp] at h
      rw [hs.1] at h
      exact absurd h (by simp)
  | removeSubscription id =>
    rcases remove_subscription_spec u id with hs | hs
    · rw [applyOp, hs]
    · rw [applyOp] at h
      rw [hs.1] at h
      exact absurd h (by simp)
  | modifyComponent n p => exact modify_component_noop u n p h

theorem foldl_applyOp_version (ops : List Op) (u : SchemaUpdater) :
    (List.foldl applyOp u ops).schema_information.version =
      u.schema_information.version := by
  induction ops generalizing u with
  | nil => rfl
  | cons op rest ih =>
    rw [List.foldl_cons, ih (applyOp u op), applyOp_version]

theorem foldl_applyOp_noop (ops : List Op) (u : SchemaUpdater)
    (h : (List.foldl applyOp u ops).modified = false) :
    List.foldl applyOp u ops = u := by
  induction ops generalizing u with
  | nil => rfl
  | cons op rest ih =>
    rw [List.foldl_cons] at h ⊢
    have h1 := ih (applyOp u op) h
    rw [h1] at h ⊢
    exact applyOp_noop u op h

/-! ### Claims -/

/-- C1: a SchemaUpdater built from s and finalized with no intervening
mutator call returns s unchanged with identical version; a session whose
calls left the modified flag clear also returns s unchanged; and a session
in which at least one mutation occurred (the modified flag is set)
finalizes to a SchemaInformation whose version is exactly s.version + 1 —
one single bump no matter how many mutator calls the session made. -/
theorem C1_session_version (s : SchemaInformation) (ops : List Op) :
    (SchemaUpdater.fromInfo s).into_inner = s ∧
    ((List.foldl applyOp (SchemaUpdater.fromInfo s) ops).modified = false →
      (List.foldl applyOp (SchemaUpdater.fromInfo s) ops).into_inner = s) ∧
    ((List.foldl applyOp (SchemaUpdater.fromInfo s) ops).modified = true →
      (List.foldl applyOp (SchemaUpdater.fromInfo s) ops).into_inner.version =
        s.version + 1) := by
  refine ⟨rfl, ?_, ?_⟩
  · intro h
    rw [foldl_applyOp_noop ops _ h]
    rfl
  · intro h
    unfold SchemaUpdater.into_inner
    rw [h]
    simp only [if_pos]
    show (List.foldl applyOp (SchemaUpdater.fromInfo s) ops).schema_information.version + 1 =
      s.version + 1
    rw [foldl_applyOp_version]
    rfl

/-- Component fixture used by concrete witness states. -/
def witHandlerSchemas : HandlerSchemas :=
  ⟨⟨true, .service, .shared, ⟨[]⟩, ⟨.none⟩⟩⟩

/-- Component fixture used by concrete witness states. -/
def witComponent : ComponentSchemas :=
  ⟨1, [(("greet"), witHandlerSchemas)], .service, ⟨1, true⟩⟩

/-- State fixture holding one component, used by concrete witnesses. -/
def witState : SchemaInformation :=
  ⟨5, [], [(("greeter.Greeter"), witComponent)], []⟩

theorem C1_session_version_witness :
    (List.foldl applyOp (SchemaUpdater.fromInfo witState)
      [Op.modifyComponent ("greeter.Greeter") false]).modified = true ∧
    (List.foldl applyOp (SchemaUpdater.fromInfo witState)
      [Op.modifyComponent ("greeter.Greeter") false]).into_inner.version =
      witState.version + 1 :=
  ⟨rfl, (C1_session_version witState [Op.modifyComponent ("greeter.Greeter") false]).2.2 rfl⟩

/-- C2: whenever add_deployment or add_subscription returns an error, the
updater is left exactly as it was before the call — schema information and
modified flag included — so no partial mutation is committed and a later
finalize does not bump the version on account of the failed call. -/
theorem C2_error_no_mutation (u : SchemaUpdater) :
    (∀ r meta comps force fid e,
      (u.add_deployment r meta comps force fid).2 = Except.error e →
      (u.add_deployment r meta comps force fid).1 = u) ∧
    (∀ id src snk md v d e,
      (u.add_subscription id src snk md v d).2 = Except.error e →
      (u.add_subscription id src snk md v d).1 = u) := by
  constructor
  · intro r meta comps force fid e h
    rcases add_deployment_spec u r meta comps force fid with hs | hs
    · exact hs.1
    · rcases hs.2.2.2 with ⟨d, hd⟩
      rw [hd] at h
      exact absurd h (by simp)
  · intro id src snk md v d e h
    rcases add_subscription_spec u id src snk md v d with hs | hs
    · exact hs.1
    · rcases hs.2.2.2 with ⟨i, hi⟩
      rw [hi] at h
      exact absurd h (by simp)

theorem C2_error_no_mutation_witness :
    ((SchemaUpdater.fromInfo witState).add_subscription (some 7) ⟨some ("mqtt"), some ("c"), ("/t")⟩
      ⟨some ("component"), some ("greeter.Greeter"), ("/greet")⟩ none Except.ok 0).2 =
      Except.error (SchemaError.subscription (SubscriptionError.invalidSourceScheme
        ⟨some ("mqtt"), some ("c"), ("/t")⟩)) ∧
    ((SchemaUpdater.fromInfo witState).add_subscription (some 7) ⟨some ("mqtt"), some ("c"), ("/t")⟩
      ⟨some ("component"), some ("greeter.Greeter"), ("/greet")⟩ none Except.ok 0).1 =
      SchemaUpdater.fromInfo witState :=
  ⟨rfl, (C2_error_no_mutation (SchemaUpdater.fromInfo witState)).2 (some 7) _ _ none
    Except.ok 0 _ rfl⟩

/-- C5: for every catalog state and add_deployment call with a valid
proposal, once an existing deployment is resolved (by requested id or by
endpoint equivalence): a set requested id that differs from the resolved id
fails with IncorrectId for force true and false alike, and a matching or
unset requested id with force cleared fails with Override. -/
theorem C5_conflict_errors (u : SchemaUpdater) (meta : DeploymentMetadata)
    (comps : List DiscoveryComponent) (fid : Nat)
    (proposed : List (String × DiscoveryComponent))
    (hparse : parseProposedComponents comps = Except.ok proposed) :
    (∀ force r eid edep,
      resolveExistingDeployment u (some r) meta.ty = some (eid, edep) →
      r ≠ eid →
      u.add_deployment (some r) meta comps force fid =
        (u, Except.error (SchemaError.deployment (DeploymentError.incorrectId r eid)))) ∧
    (∀ r eid edep,
      resolveExistingDeployment u r meta.ty = some (eid, edep) →
      (r = none ∨ r = some eid) →
      u.add_deployment r meta comps false fid =
        (u, Except.error (SchemaError.override
          ("deployment with id " ++ toString eid)))) := by
  constructor
  · intro force r eid edep hres hne
    unfold SchemaUpdater.add_deployment
    rw [hparse, hres]
    simp [hne]
  · intro r eid edep hres hr
    unfold SchemaUpdater.add_deployment
    rcases hr with hr | hr
    · subst hr
      rw [hparse, hres]
      simp [SchemaUpdater.add_deployment_resolved]
    · subst hr
      rw [hparse, hres]
      simp [SchemaUpdater.add_deployment_resolved]

/-- Deployment fixture used by concrete witness states. -/
def witDeployment : DeploymentSchemas := ⟨[⟨("greeter.Greeter"), 1⟩], ⟨("http9080")⟩⟩

/-- State fixture holding one deployment and its component, used by
concrete witnesses. -/
def witStateD : SchemaInformation :=
  ⟨5, [(1, witDeployment)], [(("greeter.Greeter"), witComponent)], []⟩

/-- Discovery fixture proposing the greeter component. -/
def witDiscovery : DiscoveryComponent :=
  ⟨.service, ("greeter.Greeter"), [⟨("greet"), none, none, none⟩]⟩

theorem C5_conflict_errors_witness :
    (SchemaUpdater.fromInfo witStateD).add_deployment (some 2) ⟨("http9080")⟩ [witDiscovery]
      true 9 =
      (SchemaUpdater.fromInfo witStateD,
        Except.error (SchemaError.deployment (DeploymentError.incorrectId 2 1))) ∧
    (SchemaUpdater.fromInfo witStateD).add_deployment (some 1) ⟨("http9080")⟩ [witDiscovery]
      false 9 =
      (SchemaUpdater.fromInfo witStateD,
        Except.error (SchemaError.override ("deployment with id " ++ toString 1))) :=
  ⟨(C5_conflict_errors (SchemaUpdater.fromInfo witStateD) ⟨("http9080")⟩ [witDiscovery] 9
      _ rfl).1 true 2 1 witDeployment rfl (by decide),
    (C5_conflict_errors (SchemaUpdater.fromInfo witStateD) ⟨("http9080")⟩ [witDiscovery] 9
      _ rfl).2 (some 1) 1 witDeployment rfl (Or.inr rfl)⟩

/-- State fixture for the C6 counterexample: the component location is
already private while a handler target is still public, the situation any
force re-deploy of a private component produces. -/
def c6State : SchemaInformation :=
  ⟨0, [],
    [(("greeter.Greeter"),
      ⟨1, [(("greet"), witHandlerSchemas)], .service, ⟨1, false⟩⟩)], []⟩

theorem C6_claim_counterexample :
    ((SchemaUpdater.fromInfo c6State).modify_component ("greeter.Greeter") false).modified
        = true ∧
    ((SchemaUpdater.fromInfo c6State).modify_component ("greeter.Greeter")
        false).schema_information ≠ c6State := by
  constructor
  · rfl
  · decide

/-- C6 (amended): modify_component(name, public) with an existing stored
component sets location.public and every handler target_meta.public to the
argument, leaves every other field and every other component unchanged,
and sets the modified flag iff location.public or at least one handler
target_meta.public differed from the argument (not only when
location.public differed); with the flag equal to false the state is
literally unchanged. A missing component changes nothing. -/
theorem C6_modify_component (u : SchemaUpdater) (n : String) (p : Bool) :
    (Map.find? u.schema_information.components n = none → u.modify_component n p = u) ∧
    (∀ schemas, Map.find? u.schema_information.components n = some schemas →
      ∃ schemas2,
        Map.find? (u.modify_component n p).schema_information.components n = some schemas2 ∧
        schemas2.location.public = p ∧
        (∀ q ∈ schemas2.handlers, q.2.target_meta.public = p) ∧
        schemas2.revision = schemas.revision ∧
        schemas2.ty = schemas.ty ∧
        schemas2.location.latest_deployment = schemas.location.latest_deployment ∧
        Map.keys schemas2.handlers = Map.keys schemas.handlers ∧
        (u.modify_component n p).modified =
          (u.modified || decide (schemas.location.public ≠ p) ||
            schemas.handlers.any (fun q => decide (q.2.target_meta.public ≠ p)))) ∧
    (∀ n2, n2 ≠ n →
      Map.find? (u.modify_component n p).schema_information.components n2 =
        Map.find? u.schema_information.components n2) ∧
    ((u.modify_component n p).modified = false → u.modify_component n p = u) := by
  refine ⟨?_, ?_, ?_, modify_component_noop u n p⟩
  · intro h
    unfold SchemaUpdater.modify_component
    rw [h]
  · intro schemas hfind
    unfold SchemaUpdater.modify_component
    rw [hfind]
    refine ⟨_, Map.find?_insert_self _ _ _, ?_, ?_, rfl, rfl, ?_, ?_, ?_⟩
    · by_cases hl : schemas.location.public ≠ p
      · simp [hl]
      · simp only [if_neg hl]
        simpa using hl
    · intro q hq
      rcases List.mem_map.mp hq with ⟨x, hx, hfx⟩
      by_cases hxp : x.2.target_meta.public ≠ p
      · rw [if_pos hxp] at hfx
        rw [← hfx]
      · rw [if_neg hxp] at hfx
        rw [← hfx]
        simpa using hxp
    · by_cases hl : schemas.location.public ≠ p
      · simp [hl]
      · simp [if_neg hl]
    · show Map.keys (schemas.handlers.map _) = Map.keys schemas.handlers
      unfold Map.keys
      rw [List.map_map]
      apply List.map_congr_left
      intro x hx
      simp only [Function.comp_apply]
      split <;> rfl
    · rfl
  · intro n2 hn2
    unfold SchemaUpdater.modify_component
    split
    · rfl
    · exact Map.find?_insert_ne _ _ _ _ hn2

theorem C6_modify_component_witness :
    (Map.find? ((SchemaUpdater.fromInfo c6State).modify_component ("greeter.Greeter")
        false).schema_information.components ("greeter.Greeter")).map
      (fun s => s.location.public) = some false := by
  rcases (C6_modify_component (SchemaUpdater.fromInfo c6State) ("greeter.Greeter") false).2.1
    ⟨1, [(("greet"), witHandlerSchemas)], .service, ⟨1, false⟩⟩ rfl with
    ⟨s2, hs2, hpub, _⟩
  rw [hs2, Option.map_some', hpub]

theorem removeDeploymentComponentStep_fold (l : List ComponentMetadata)
    (comps : List (String × ComponentSchemas)) (name : String) :
    Map.find? (l.foldl removeDeploymentComponentStep comps) name =
      match Map.find? comps name with
      | none => none
      | some c =>
        if l.any (fun cm => decide (cm.name = name) && decide (cm.revision = c.revision))
        then none else some c := by
  induction l generalizing comps with
  | nil =>
    cases h : Map.find? comps name <;> simp [h]
  | cons cm rest ih =>
    rw [List.foldl_cons, ih]
    by_cases hn : cm.name = name
    · subst hn
      cases h : Map.find? comps cm.name with
      | none =>
        have hstep : removeDeploymentComponentStep comps cm = comps := by
          unfold removeDeploymentComponentStep
          simp [h]
        rw [hstep, h]
      | some c =>
        by_cases hr : c.revision = cm.revision
        · have hstep : removeDeploymentComponentStep comps cm = Map.erase comps cm.name := by
            unfold removeDeploymentComponentStep
            simp [h, hr]
          rw [hstep, Map.find?_erase_self]
          simp [hr]
        · have hstep : removeDeploymentComponentStep comps cm = comps := by
            unfold removeDeploymentComponentStep
            simp [h, hr]
          rw [hstep, h]
          have hr2 : ¬ cm.revision = c.revision := fun hh => hr hh.symm
          simp [hr2]
    · have hstep : Map.find? (removeDeploymentComponentStep comps cm) name =
          Map.find? comps name := by
        unfold removeDeploymentComponentStep
        split
        · split
          · exact Map.find?_erase_ne _ _ _ (fun hh => hn hh.symm)
          · rfl
        · rfl
      rw [hstep]
      cases h : Map.find? comps name <;> simp [h, hn]

/-- C4: remove_deployment deletes the DeploymentRecord when present and
sets the modified flag exactly when something was removed (the record was
present); each snapshotted (name, revision) pair deletes the component iff
the current revision of that component still equals a snapshotted revision
for its name, so a component overwritten by a later deployment survives
unchanged; with no record present nothing changes; consequently a
surviving component whose latest_deployment equals the removed id has a
revision differing from every revision snapshotted for its name. -/
theorem C4_remove_deployment (u : SchemaUpdater) (d : Nat) :
    Map.find? (u.remove_deployment d).schema_information.deployments d = none ∧
    (u.remove_deployment d).modified =
      (u.modified || (Map.find? u.schema_information.deployments d).isSome) ∧
    (Map.find? u.schema_information.deployments d = none → u.remove_deployment d = u) ∧
    (∀ dep, Map.find? u.schema_information.deployments d = some dep →
      ∀ name,
        Map.find? (u.remove_deployment d).schema_information.components name =
          match Map.find? u.schema_information.components name with
          | none => none
          | some c =>
            if dep.components.any
              (fun cm => decide (cm.name = name) && decide (cm.revision = c.revision))
            then none else some c) ∧
    (∀ dep name c, Map.find? u.schema_information.deployments d = some dep →
      Map.find? (u.remove_deployment d).schema_information.components name = some c →
      c.location.latest_deployment = d →
      ∀ cm ∈ dep.components, cm.name = name → cm.revision ≠ c.revision) := by
  have hdep : Map.find? (u.remove_deployment d).schema_information.deployments d = none := by
    unfold SchemaUpdater.remove_deployment
    split
    · assumption
    · exact Map.find?_erase_self _ _
  have hmod : (u.remove_deployment d).modified =
      (u.modified || (Map.find? u.schema_information.deployments d).isSome) := by
    unfold SchemaUpdater.remove_deployment
    split <;> rename_i h <;> simp [h]
  have hnone : Map.find? u.schema_information.deployments d = none →
      u.remove_deployment d = u := by
    intro h
    unfold SchemaUpdater.remove_deployment
    rw [h]
  have hmatch : ∀ dep, Map.find? u.schema_information.deployments d = some dep →
      ∀ name,
        Map.find? (u.remove_deployment d).schema_information.components name =
          match Map.find? u.schema_information.components name with
          | none => none
          | some c =>
            if dep.components.any
              (fun cm => decide (cm.name = name) && decide (cm.revision = c.revision))
            then none else some c := by
    intro dep h name
    unfold SchemaUpdater.remove_deployment
    rw [h]
    exact removeDeploymentComponentStep_fold dep.components _ name
  refine ⟨hdep, hmod, hnone, hmatch, ?_⟩
  intro dep name c h hsurv hlat cm hcm hname hrev
  have hthis := hmatch dep h name
  cases hpre : Map.find? u.schema_information.components name with
  | none =>
    simp only [hpre] at hthis
    rw [hsurv] at hthis
    exact absurd hthis (by simp)
  | some c0 =>
    simp only [hpre] at hthis
    rw [hsurv] at hthis
    by_cases hany : (dep.components.any
        (fun cm2 => decide (cm2.name = name) && decide (cm2.revision = c0.revision))) = true
    · rw [if_pos hany] at hthis
      exact absurd hthis (by simp)
    · rw [if_neg hany] at hthis
      have hc : c = c0 := by injection hthis
      subst hc
      apply hany
      rw [List.any_eq_true]
      exact ⟨cm, hcm, by simp [hname, hrev]⟩

/-- State fixture of the remove_deployment scenario: deployment 1 snapshots
greeter at revision 1 and another greeter at revision 1, deployment 2 has
overwritten greeter at revision 2. -/
def c4State : SchemaInformation :=
  ⟨7,
    [(1, ⟨[⟨("greeter.Greeter"), 1⟩, ⟨("greeter.AnotherGreeter"), 1⟩], ⟨("http9080")⟩⟩),
     (2, ⟨[⟨("greeter.Greeter"), 2⟩], ⟨("http9081")⟩⟩)],
    [(("greeter.Greeter"),
      ⟨2, [(("greet"), witHandlerSchemas)], .service, ⟨2, true⟩⟩),
     (("greeter.AnotherGreeter"),
      ⟨1, [(("another_greeter"), witHandlerSchemas)], .service, ⟨1, true⟩⟩)],
    []⟩

theorem C4_remove_deployment_witness :
    Map.find? ((SchemaUpdater.fromInfo c4State).remove_deployment
      1).schema_information.components ("greeter.AnotherGreeter") = none ∧
    Map.find? ((SchemaUpdater.fromInfo c4State).remove_deployment
      1).schema_information.components ("greeter.Greeter") =
      some ⟨2, [(("greet"), witHandlerSchemas)], .service, ⟨2, true⟩⟩ ∧
    Map.find? ((SchemaUpdater.fromInfo c4State).remove_deployment
      1).schema_information.deployments 1 = none := by
  have h := C4_remove_deployment (SchemaUpdater.fromInfo c4State) 1
  refine ⟨?_, ?_, h.1⟩
  · rw [h.2.2.2.1 ⟨[⟨("greeter.Greeter"), 1⟩, ⟨("greeter.AnotherGreeter"), 1⟩],
      ⟨("http9080")⟩⟩ rfl ("greeter.AnotherGreeter")]
    rfl
  · rw [h.2.2.2.1 ⟨[⟨("greeter.Greeter"), 1⟩, ⟨("greeter.AnotherGreeter"), 1⟩],
      ⟨("http9080")⟩⟩ rfl ("greeter.Greeter")]
    rfl

theorem Map.find?_append_none {α β : Type} [DecidableEq α]
    (m m2 : List (α × β)) (k : α) (h : Map.find? m k = none) :
    Map.find? (m ++ m2) k = Map.find? m2 k := by
  induction m with
  | nil => rfl
  | cons p rest ih =>
    rcases p with ⟨k0, v0⟩
    by_cases h0 : k0 = k
    · simp [Map.find?, h0] at h
    · simp only [Map.find?, h0, if_neg h0] at h ⊢
      exact ih h

theorem Map.insert_eq_append {α β : Type} [DecidableEq α]
    (m : List (α × β)) (k : α) (v : β) (h : Map.find? m k = none) :
    Map.insert m k v = m ++ [(k, v)] := by
  induction m with
  | nil => rfl
  | cons p rest ih =>
    rcases p with ⟨k0, v0⟩
    by_cases h0 : k0 = k
    · simp [Map.find?, h0] at h
    · simp only [Map.find?, if_neg h0] at h
      simp [Map.insert, h0, ih h]

theorem foldl_insert_eq_append {α β : Type} [DecidableEq α]
    (l m : List (α × β)) (hfresh : ∀ p ∈ l, Map.find? m p.1 = none)
    (hnodup : (Map.keys l).Nodup) :
    l.foldl (fun m2 p => Map.insert m2 p.1 p.2) m = m ++ l := by
  induction l generalizing m with
  | nil => simp
  | cons p rest ih =>
    rcases p with ⟨k, v⟩
    rw [List.foldl_cons]
    have h1 : Map.insert m k v = m ++ [(k, v)] :=
      Map.insert_eq_append m k v (hfresh (k, v) (by simp))
    rw [h1]
    have hnd : k ∉ Map.keys rest ∧ (Map.keys rest).Nodup := List.nodup_cons.mp hnodup
    have h2 : ∀ q ∈ rest, Map.find? (m ++ [(k, v)]) q.1 = none := by
      intro q hq
      rw [Map.find?_append_none m _ _ (hfresh q (by simp [hq]))]
      have hqk : ¬ k = q.1 := by
        intro hh
        exact hnd.1 (by rw [hh]; exact List.mem_map_of_mem Prod.fst hq)
      simp [Map.find?, hqk]
    rw [ih (m ++ [(k, v)]) h2 hnd.2]
    simp

theorem find?_foldl_insert_not_mem {α β : Type} [DecidableEq α]
    (l m : List (α × β)) (k : α) (h : k ∉ Map.keys l) :
    Map.find? (l.foldl (fun m2 p => Map.insert m2 p.1 p.2) m) k = Map.find? m k := by
  induction l generalizing m with
  | nil => rfl
  | cons p rest ih =>
    rw [List.foldl_cons]
    have hk : k ≠ p.1 := by
      intro hh
      exact h (by rw [hh]; exact List.mem_map_of_mem Prod.fst (by simp))
    rw [ih _ (fun hh => h (List.mem_cons_of_mem _ hh)), Map.find?_insert_ne _ _ _ _ hk]

theorem find?_foldl_insert_mem {α β : Type} [DecidableEq α]
    (l m : List (α × β)) (k : α) (v : β) (hnodup : (Map.keys l).Nodup)
    (hmem : (k, v) ∈ l) :
    Map.find? (l.foldl (fun m2 p => Map.insert m2 p.1 p.2) m) k = some v := by
  induction l generalizing m with
  | nil => simp at hmem
  | cons p rest ih =>
    rw [List.foldl_cons]
    have hnd : p.1 ∉ Map.keys rest ∧ (Map.keys rest).Nodup := List.nodup_cons.mp hnodup
    rcases List.mem_cons.mp hmem with hh | hh
    · subst hh
      rw [find?_foldl_insert_not_mem rest _ k hnd.1, Map.find?_insert_self]
    · exact ih _ hnd.2 hh

theorem find?_foldl_erase {α β : Type} [DecidableEq α]
    (names : List α) (m : List (α × β)) (k : α) :
    Map.find? (names.foldl (fun m2 n => Map.erase m2 n) m) k =
      if k ∈ names then none else Map.find? m k := by
  induction names generalizing m with
  | nil => simp
  | cons n rest ih =>
    rw [List.foldl_cons, ih]
    by_cases hk : k ∈ rest
    · simp [hk]
    · by_cases hn : k = n
      · subst hn
        simp [hk, Map.find?_erase_self]
      · simp [hk, hn, Map.find?_erase_ne _ _ _ hn]

theorem validateComponentNames_ok (comps : List DiscoveryComponent)
    (pairs : List (String × DiscoveryComponent))
    (h : validateComponentNames comps = Except.ok pairs) :
    pairs = comps.map (fun c => (c.fully_qualified_component_name, c)) := by
  induction comps generalizing pairs with
  | nil =>
    simp only [validateComponentNames] at h
    injection h with h
    rw [← h]
    rfl
  | cons c rest ih =>
    simp only [validateComponentNames, ComponentName.try_from] at h
    by_cases hn : c.fully_qualified_component_name = ""
    · rw [if_pos hn] at h
      exact absurd h (by simp)
    · rw [if_neg hn] at h
      cases hv : validateComponentNames rest with
      | error e => rw [hv] at h; exact absurd h (by simp)
      | ok tail =>
        rw [hv] at h
        injection h with h
        rw [← h, List.map_cons, ih tail hv]

theorem computeComponentsToAdd_keys (u : SchemaUpdater) (did : Nat) (force : Bool)
    (props : List (String × DiscoveryComponent)) (toAdd : List (String × ComponentSchemas))
    (h : computeComponentsToAdd u did force props = Except.ok toAdd) :
    Map.keys toAdd = Map.keys props := by
  induction props generalizing toAdd with
  | nil =>
    simp only [computeComponentsToAdd] at h
    injection h with h
    rw [← h]
    rfl
  | cons p rest ih =>
    rcases p with ⟨name, c⟩
    simp only [computeComponentsToAdd] at h
    cases hcs : computeComponentSchema u did force name c with
    | error e => rw [hcs] at h; exact absurd h (by simp)
    | ok cs =>
      rw [hcs] at h
      cases ht : computeComponentsToAdd u did force rest with
      | error e => rw [ht] at h; exact absurd h (by simp)
      | ok tail =>
        rw [ht] at h
        injection h with h
        rw [← h]
        have h2 := ih tail ht
        simp only [Map.keys, List.map_cons] at h2 ⊢
        rw [h2]

theorem computeComponentsToAdd_mem (u : SchemaUpdater) (did : Nat) (force : Bool)
    (props : List (String × DiscoveryComponent)) (toAdd : List (String × ComponentSchemas))
    (h : computeComponentsToAdd u did force props = Except.ok toAdd)
    (name : String) (c : DiscoveryComponent) (hmem : (name, c) ∈ props) :
    ∃ cs, computeComponentSchema u did force name c = Except.ok cs ∧ (name, cs) ∈ toAdd := by
  induction props generalizing toAdd with
  | nil => simp at hmem
  | cons p rest ih =>
    rcases p with ⟨name0, c0⟩
    simp only [computeComponentsToAdd] at h
    cases hcs : computeComponentSchema u did force name0 c0 with
    | error e => rw [hcs] at h; exact absurd h (by simp)
    | ok cs0 =>
      rw [hcs] at h
      cases ht : computeComponentsToAdd u did force rest with
      | error e => rw [ht] at h; exact absurd h (by simp)
      | ok tail =>
        rw [ht] at h
        injection h with h
        rcases List.mem_cons.mp hmem with hh | hh
        · injection hh with h1 h2
          subst h1
          subst h2
          exact ⟨cs0, hcs, by rw [← h]; simp⟩
        · rcases ih tail ht hh with ⟨cs, hcs2, hmem2⟩
          exact ⟨cs, hcs2, by rw [← h]; simp [hmem2]⟩

theorem computeComponentSchema_ok_spec (u : SchemaUpdater) (did : Nat) (force : Bool)
    (n : String) (c : DiscoveryComponent) (cs : ComponentSchemas)
    (h : computeComponentSchema u did force n c = Except.ok cs) :
    ∃ metas,
      computeHandlerMetadata (ComponentType.fromDiscovery c.component_type) c.handlers =
        Except.ok metas ∧
      cs.handlers = DiscoveredHandlerMetadata.compute_handlers
        (ComponentType.fromDiscovery c.component_type) metas ∧
      cs.ty = ComponentType.fromDiscovery c.component_type ∧
      cs.location.latest_deployment = did ∧
      (match Map.find? u.schema_information.components n with
       | none => cs.revision = 1 ∧ cs.location.public = true
       | some old => cs.revision = wrappingAdd1 old.revision ∧
           cs.location.public = old.location.public) := by
  unfold computeComponentSchema at h
  cases hm : computeHandlerMetadata (ComponentType.fromDiscovery c.component_type)
      c.handlers with
  | error e => rw [hm] at h; exact absurd h (by simp)
  | ok metas =>
    simp only [hm] at h
    refine ⟨metas, rfl, ?_⟩
    cases hf : Map.find? u.schema_information.components n with
    | none =>
      simp only [hf] at h
      injection h with h
      rw [← h]
      simp [hf]
    | some old =>
      simp only [hf] at h
      split at h
      · exact absurd h (by simp)
      · split at h
        · exact absurd h (by simp)
        · injection h with h
          rw [← h]
          simp [hf]

theorem finish_add_deployment_did (u : SchemaUpdater) (did : Nat)
    (meta : DeploymentMetadata) (props : List (String × DiscoveryComponent))
    (rem : List String) (force : Bool) (u2 : SchemaUpdater) (D : Nat)
    (h : u.finish_add_deployment did meta props rem force = (u2, Except.ok D)) :
    did = D := by
  rcases finish_add_deployment_spec u did meta props rem force with hs | hs
  · rcases hs.2 with ⟨e, he⟩
    rw [h] at he
    exact absurd he (by simp)
  · have h2 := hs.2.2.2
    rw [h] at h2
    injection h2 with h2
    exact h2.symm

theorem add_deployment_resolved_ok_inv (u : SchemaUpdater) (eid : Nat)
    (edep : DeploymentSchemas) (meta : DeploymentMetadata)
    (proposed : List (String × DiscoveryComponent)) (force : Bool)
    (u2 : SchemaUpdater) (D : Nat)
    (h : u.add_deployment_resolved eid edep meta proposed force = (u2, Except.ok D)) :
    ∃ toRemove, u.finish_add_deployment D meta proposed toRemove force =
      (u2, Except.ok D) := by
  unfold SchemaUpdater.add_deployment_resolved at h
  split at h
  · have hd := finish_add_deployment_did u eid meta proposed _ force u2 D h
    rw [hd] at h
    exact ⟨_, h⟩
  · exact absurd (congrArg Prod.snd h) (by simp)

theorem add_deployment_ok_inv (u : SchemaUpdater) (r : Option Nat)
    (meta : DeploymentMetadata) (comps : List DiscoveryComponent) (force : Bool)
    (fid : Nat) (u2 : SchemaUpdater) (D : Nat)
    (hok : u.add_deployment r meta comps force fid = (u2, Except.ok D)) :
    ∃ proposed toRemove,
      parseProposedComponents comps = Except.ok proposed ∧
      u.finish_add_deployment D meta proposed toRemove force = (u2, Except.ok D) := by
  cases hp : parseProposedComponents comps with
  | error e =>
    have heq : u.add_deployment r meta comps force fid = (u, Except.error e) := by
      unfold SchemaUpdater.add_deployment
      rw [hp]
    rw [heq] at hok
    exact absurd (congrArg Prod.snd hok) (by simp)
  | ok proposed =>
    cases hres : resolveExistingDeployment u r meta.ty with
    | none =>
      have heq : u.add_deployment r meta comps force fid =
          u.finish_add_deployment (r.getD fid) meta proposed [] force := by
        unfold SchemaUpdater.add_deployment
        rw [hp, hres]
      rw [heq] at hok
      have hd := finish_add_deployment_did u (r.getD fid) meta proposed [] force u2 D hok
      rw [hd] at hok
      exact ⟨proposed, [], rfl, hok⟩
    | some pair =>
      rcases pair with ⟨eid, edep⟩
      cases r with
      | none =>
        have heq : u.add_deployment none meta comps force fid =
            u.add_deployment_resolved eid edep meta proposed force := by
          unfold SchemaUpdater.add_deployment
          rw [hp, hres]
        rw [heq] at hok
        rcases add_deployment_resolved_ok_inv u eid edep meta proposed force u2 D hok with
          ⟨toRemove, hfin⟩
        exact ⟨proposed, toRemove, rfl, hfin⟩
      | some dp =>
        by_cases hdp : dp = eid
        · have heq : u.add_deployment (some dp) meta comps force fid =
              u.add_deployment_resolved eid edep meta proposed force := by
            unfold SchemaUpdater.add_deployment
            rw [hp, hres]
            simp [hdp]
          rw [heq] at hok
          rcases add_deployment_resolved_ok_inv u eid edep meta proposed force u2 D hok with
            ⟨toRemove, hfin⟩
          exact ⟨proposed, toRemove, rfl, hfin⟩
        · have heq : u.add_deployment (some dp) meta comps force fid =
              (u, Except.error (SchemaError.deployment
                (DeploymentError.incorrectId dp eid))) := by
            unfold SchemaUpdater.add_deployment
            rw [hp, hres]
            simp [hdp]
          rw [heq] at hok
          exact absurd (congrArg Prod.snd hok) (by simp)

/-- C3: after a successful add_deployment returning deployment id D, with
pairwise distinct proposed names, every proposed component is stored under
its name: a previously absent name with revision 1, public true and the
proposed type; a previously present name with the wrapped incremented
revision, the proposed type and its previous public flag preserved. In
both cases the stored handlers are the freshly computed handler set and
location.latest_deployment is D, so every listed component maps back to D. -/
theorem C3_add_deployment_components (u : SchemaUpdater) (r : Option Nat)
    (meta : DeploymentMetadata) (comps : List DiscoveryComponent) (force : Bool)
    (fid : Nat) (u2 : SchemaUpdater) (D : Nat)
    (hok : u.add_deployment r meta comps force fid = (u2, Except.ok D))
    (hnodup : (comps.map (fun c => c.fully_qualified_component_name)).Nodup) :
    ∀ c ∈ comps, ∃ cs metas,
      computeHandlerMetadata (ComponentType.fromDiscovery c.component_type) c.handlers =
        Except.ok metas ∧
      cs.handlers = DiscoveredHandlerMetadata.compute_handlers
        (ComponentType.fromDiscovery c.component_type) metas ∧
      Map.find? u2.schema_information.components c.fully_qualified_component_name =
        some cs ∧
      cs.ty = ComponentType.fromDiscovery c.component_type ∧
      cs.location.latest_deployment = D ∧
      (match Map.find? u.schema_information.components c.fully_qualified_component_name with
       | none => cs.revision = 1 ∧ cs.location.public = true
       | some old => cs.revision = wrappingAdd1 old.revision ∧
           cs.location.public = old.location.public) := by
  intro c hc
  obtain ⟨proposed, toRemove, hp, hfin⟩ :=
    add_deployment_ok_inv u r meta comps force fid u2 D hok
  unfold parseProposedComponents at hp
  cases hv : validateComponentNames comps with
  | error e => rw [hv] at hp; exact absurd hp (by simp)
  | ok pairs =>
    rw [hv] at hp
    injection hp with hp
    have hpairs := validateComponentNames_ok comps pairs hv
    have hkeys : Map.keys pairs = comps.map (fun c => c.fully_qualified_component_name) := by
      rw [hpairs]
      simp [Map.keys]
    have hnodupk : (Map.keys pairs).Nodup := by rw [hkeys]; exact hnodup
    have hprop : proposed = pairs := by
      rw [← hp, foldl_insert_eq_append pairs [] (fun p _ => rfl) hnodupk]
      simp
    have hmem : (c.fully_qualified_component_name, c) ∈ proposed := by
      rw [hprop, hpairs]
      exact List.mem_map_of_mem _ hc
    unfold SchemaUpdater.finish_add_deployment at hfin
    cases hca : computeComponentsToAdd u D force proposed with
    | error e => rw [hca] at hfin; exact absurd (congrArg Prod.snd hfin) (by simp)
    | ok toAdd =>
      rw [hca] at hfin
      obtain ⟨cs, hcs, hmem2⟩ :=
        computeComponentsToAdd_mem u D force proposed toAdd hca _ _ hmem
      have hkeys2 : Map.keys toAdd = Map.keys proposed :=
        computeComponentsToAdd_keys u D force proposed toAdd hca
      have hnodup2 : (Map.keys toAdd).Nodup := by
        rw [hkeys2, hprop]
        exact hnodupk
      have hu2 : toAdd.foldl (fun m p => Map.insert m p.1 p.2)
          (toRemove.foldl (fun m n => Map.erase m n) u.schema_information.components) =
          u2.schema_information.components :=
        congrArg (fun x => x.1.schema_information.components) hfin
      have hfind : Map.find? u2.schema_information.components
          c.fully_qualified_component_name = some cs := by
        rw [← hu2]
        exact find?_foldl_insert_mem toAdd _ _ _ hnodup2 hmem2
      obtain ⟨metas, hmetas, hhand, hty, hlat, hmatch⟩ :=
        computeComponentSchema_ok_spec u D force _ c cs hcs
      exact ⟨cs, metas, hmetas, hhand, hfind, hty, hlat, hmatch⟩

theorem C3_add_deployment_components_witness :
    (Map.find? ((SchemaUpdater.fromInfo ⟨0, [], [], []⟩).add_deployment (some 1)
        ⟨("http9080")⟩ [witDiscovery] false 9).1.schema_information.components
      ("greeter.Greeter")).map
      (fun cs => (cs.revision, cs.location.latest_deployment, cs.location.public)) =
      some (1, 1, true) := by
  obtain ⟨cs, metas, hm, hh, hfind, hty, hlat, hmatch⟩ :=
    C3_add_deployment_components (SchemaUpdater.fromInfo ⟨0, [], [], []⟩) (some 1)
      ⟨("http9080")⟩ [witDiscovery] false 9
      ((SchemaUpdater.fromInfo ⟨0, [], [], []⟩).add_deployment (some 1)
        ⟨("http9080")⟩ [witDiscovery] false 9).1
      1 rfl (by simp) witDiscovery (by simp)
  rw [show witDiscovery.fully_qualified_component_name = ("greeter.Greeter") from rfl]
    at hfind
  rw [hfind, Option.map_some', hmatch.1, hlat, hmatch.2]

theorem Map.find?_eq_none_iff {α β : Type} [DecidableEq α]
    (m : List (α × β)) (k : α) :
    Map.find? m k = none ↔ k ∉ Map.keys m := by
  induction m with
  | nil => simp [Map.find?, Map.keys]
  | cons p rest ih =>
    rcases p with ⟨k0, v0⟩
    by_cases h0 : k0 = k
    · subst h0
      simp [Map.find?, Map.keys]
    · have h1 : ¬ k = k0 := fun hh => h0 hh.symm
      simp only [Map.find?, if_neg h0, Map.keys, List.map_cons, List.mem_cons]
      rw [ih]
      constructor
      · intro hnk hor
        rcases hor with hh | hh
        · exact h1 hh
        · exact hnk hh
      · intro hn hh
        exact hn (Or.inr hh)

/-- C10 (implicit): a forced add_deployment that reuses an existing
deployment id removes every component listed in the old record but absent
from the new proposal unconditionally, with no check of the current
revision against the snapshot: even a component whose revision differs from
the snapshot (it has been overwritten by — and belongs to — a later
deployment) is deleted, whereas remove_deployment on the same state keeps
exactly such a component. -/
theorem C10_forced_removal_unconditional (u : SchemaUpdater) (r : Option Nat)
    (meta : DeploymentMetadata) (comps : List DiscoveryComponent)
    (fid : Nat) (u2 : SchemaUpdater) (D : Nat) (eid : Nat) (edep : DeploymentSchemas)
    (proposed : List (String × DiscoveryComponent)) (cm : ComponentMetadata)
    (c : ComponentSchemas)
    (hres : resolveExistingDeployment u r meta.ty = some (eid, edep))
    (hdep : Map.find? u.schema_information.deployments eid = some edep)
    (hr : r = none ∨ r = some eid)
    (hok : u.add_deployment r meta comps true fid = (u2, Except.ok D))
    (hp : parseProposedComponents comps = Except.ok proposed)
    (hcm : cm ∈ edep.components)
    (habsent : Map.containsKey proposed cm.name = false)
    (hc : Map.find? u.schema_information.components cm.name = some c)
    (hrev : ∀ cm2 ∈ edep.components, cm2.name = cm.name → cm2.revision ≠ c.revision) :
    Map.find? u2.schema_information.components cm.name = none ∧
    Map.find? (u.remove_deployment eid).schema_information.components cm.name = some c := by
  have heq : u.add_deployment r meta comps true fid =
      u.add_deployment_resolved eid edep meta proposed true := by
    rcases hr with hr | hr <;> subst hr
    · unfold SchemaUpdater.add_deployment
      rw [hp, hres]
    · unfold SchemaUpdater.add_deployment
      rw [hp, hres]
      simp
  rw [heq] at hok
  unfold SchemaUpdater.add_deployment_resolved at hok
  rw [if_pos rfl] at hok
  have hD := finish_add_deployment_did u eid meta proposed _ true u2 D hok
  subst hD
  constructor
  · unfold SchemaUpdater.finish_add_deployment at hok
    cases hca : computeComponentsToAdd u eid true proposed with
    | error e => rw [hca] at hok; exact absurd (congrArg Prod.snd hok) (by simp)
    | ok toAdd =>
      rw [hca] at hok
      have hu2 : toAdd.foldl (fun m p => Map.insert m p.1 p.2)
          (((edep.components.filter
              (fun cm2 => ! Map.containsKey proposed cm2.name)).map
              (fun cm2 => cm2.name)).foldl (fun m n => Map.erase m n)
            u.schema_information.components) =
          u2.schema_information.components :=
        congrArg (fun x => x.1.schema_information.components) hok
      rw [← hu2]
      have hnk : cm.name ∉ Map.keys toAdd := by
        rw [computeComponentsToAdd_keys u eid true proposed toAdd hca]
        have hn : Map.find? proposed cm.name = none := by
          unfold Map.containsKey at habsent
          cases hfp : Map.find? proposed cm.name with
          | none => rfl
          | some q => rw [hfp] at habsent; simp at habsent
        exact (Map.find?_eq_none_iff proposed cm.name).mp hn
      rw [find?_foldl_insert_not_mem _ _ _ hnk, find?_foldl_erase]
      have hmemRem : cm.name ∈ (edep.components.filter
          (fun cm2 => ! Map.containsKey proposed cm2.name)).map (fun cm2 => cm2.name) :=
        List.mem_map_of_mem _ (List.mem_filter.mpr ⟨hcm, by simp [habsent]⟩)
      rw [if_pos hmemRem]
  · have h2 := removeDeploymentComponentStep_fold edep.components
      u.schema_information.components cm.name
    simp only [hc] at h2
    have hany : (edep.components.any
        (fun cm2 => decide (cm2.name = cm.name) && decide (cm2.revision = c.revision)))
        = false := by
      rw [List.any_eq_false]
      intro cm2 hcm2
      simp only [Bool.and_eq_true, decide_eq_true_eq, not_and]
      intro hn hr2
      exact hrev cm2 hcm2 hn hr2
    rw [hany] at h2
    simp only [if_neg (by simp : ¬ false = true)] at h2
    have heq2 : u.remove_deployment eid =
        { schema_information :=
            { u.schema_information with
              deployments := Map.erase u.schema_information.deployments eid,
              components := edep.components.foldl removeDeploymentComponentStep
                u.schema_information.components },
          modified := true } := by
      unfold SchemaUpdater.remove_deployment
      rw [hdep]
    rw [heq2]
    exact h2

/-- State fixture for the C10 witness: deployment 1 snapshots component A
at revision 1, deployment 2 has since overwritten A at revision 2. -/
def c10State : SchemaInformation :=
  ⟨3,
    [(1, ⟨[⟨("A"), 1⟩], ⟨("e1")⟩⟩), (2, ⟨[⟨("A"), 2⟩], ⟨("e2")⟩⟩)],
    [(("A"), ⟨2, [(("h"), witHandlerSchemas)], .service, ⟨2, true⟩⟩)],
    []⟩

theorem C10_forced_removal_unconditional_witness :
    Map.find? ((SchemaUpdater.fromInfo c10State).add_deployment (some 1) ⟨("e1")⟩ []
        true 9).1.schema_information.components ("A") = none ∧
    Map.find? ((SchemaUpdater.fromInfo c10State).remove_deployment
        1).schema_information.components ("A") =
      some ⟨2, [(("h"), witHandlerSchemas)], .service, ⟨2, true⟩⟩ :=
  C10_forced_removal_unconditional (SchemaUpdater.fromInfo c10State) (some 1) ⟨("e1")⟩ []
    9 ((SchemaUpdater.fromInfo c10State).add_deployment (some 1) ⟨("e1")⟩ [] true 9).1
    1 1 ⟨[⟨("A"), 1⟩], ⟨("e1")⟩⟩ [] ⟨("A"), 1⟩
    ⟨2, [(("h"), witHandlerSchemas)], .service, ⟨2, true⟩⟩
    rfl rfl (Or.inr rfl) rfl rfl (by simp) rfl rfl (by decide)

theorem C7_claim_counterexample :
    ((SchemaUpdater.fromInfo witState).add_subscription (some 7)
      ⟨some ("kafka"), some ("cluster"), ("/")⟩
      ⟨some ("component"), some ("greeter.Greeter"), ("/greet")⟩ none Except.ok 0).2 =
      Except.ok 7 ∧
    Map.find? ((SchemaUpdater.fromInfo witState).add_subscription (some 7)
      ⟨some ("kafka"), some ("cluster"), ("/")⟩
      ⟨some ("component"), some ("greeter.Greeter"), ("/greet")⟩ none
        Except.ok 0).1.schema_information.subscriptions 7 =
      some ⟨7, Source.kafka ("cluster") ("") OrderingKeyFormat.default,
        Sink.component ("greeter.Greeter") ("greet") EventReceiverComponentType.service,
        []⟩ :=
  ⟨rfl, rfl⟩

/-- C7 (amended): the subscription URI parser accepts a source only with
lowercase scheme kafka (any other or missing scheme yields
InvalidSourceScheme, a missing authority InvalidKafkaSourceAuthority),
producing Source::Kafka with cluster = authority and topic = the path
minus its first character — the topic may be empty, no nonempty first path
segment is required; a sink is accepted only with scheme component
(otherwise InvalidSinkScheme, missing authority
InvalidComponentSinkAuthority), and the named component and the named
handler (the sink path minus its first character) must exist, otherwise
SinkComponentNotFound. Parse errors propagate whole out of
add_subscription when the subscription id is fresh. -/
theorem C7_subscription_uri_rules (u : SchemaUpdater) (src snk : Uri) :
    (∀ sch, src.scheme = some sch → sch ≠ kafkaScheme →
      parseKafkaSource src =
        Except.error (.subscription (.invalidSourceScheme src))) ∧
    (src.scheme = none →
      parseKafkaSource src =
        Except.error (.subscription (.invalidSourceScheme src))) ∧
    (src.scheme = some kafkaScheme → src.authority = none →
      parseKafkaSource src =
        Except.error (.subscription (.invalidKafkaSourceAuthority src))) ∧
    (∀ a, src.scheme = some kafkaScheme → src.authority = some a →
      parseKafkaSource src = Except.ok (Source.kafka a (src.path.drop 1) .default)) ∧
    (∀ sch, snk.scheme = some sch → sch ≠ componentScheme →
      parseComponentSink u snk =
        Except.error (.subscription (.invalidSinkScheme snk))) ∧
    (snk.scheme = none →
      parseComponentSink u snk =
        Except.error (.subscription (.invalidSinkScheme snk))) ∧
    (snk.scheme = some componentScheme → snk.authority = none →
      parseComponentSink u snk =
        Except.error (.subscription (.invalidComponentSinkAuthority snk))) ∧
    (∀ a, snk.scheme = some componentScheme → snk.authority = some a →
      Map.find? u.schema_information.components a = none →
      parseComponentSink u snk =
        Except.error (.subscription (.sinkComponentNotFound snk))) ∧
    (∀ a cschemas, snk.scheme = some componentScheme → snk.authority = some a →
      Map.find? u.schema_information.components a = some cschemas →
      Map.containsKey cschemas.handlers (snk.path.drop 1) = false →
      parseComponentSink u snk =
        Except.error (.subscription (.sinkComponentNotFound snk))) ∧
    (∀ a cschemas, snk.scheme = some componentScheme → snk.authority = some a →
      Map.find? u.schema_information.components a = some cschemas →
      Map.containsKey cschemas.handlers (snk.path.drop 1) = true →
      parseComponentSink u snk = Except.ok (Sink.component a (snk.path.drop 1)
        (match cschemas.ty with
         | .virtualObject => EventReceiverComponentType.virtualObject false
         | .service => EventReceiverComponentType.service))) ∧
    (∀ id md v d e,
      Map.containsKey u.schema_information.subscriptions (id.getD d) = false →
      parseKafkaSource src = Except.error e →
      u.add_subscription id src snk md v d = (u, Except.error e)) ∧
    (∀ id md v d e s0,
      Map.containsKey u.schema_information.subscriptions (id.getD d) = false →
      parseKafkaSource src = Except.ok s0 →
      parseComponentSink u snk = Except.error e →
      u.add_subscription id src snk md v d = (u, Except.error e)) := by
  refine ⟨?_, ?_, ?_, ?_, ?_, ?_, ?_, ?_, ?_, ?_, ?_, ?_⟩
  · intro sch hs hne
    unfold parseKafkaSource
    rw [hs]
    simp [hne]
  · intro hs
    unfold parseKafkaSource
    rw [hs]
  · intro hs ha
    unfold parseKafkaSource
    rw [hs, ha]
    simp
  · intro a hs ha
    unfold parseKafkaSource
    rw [hs, ha]
    simp
  · intro sch hs hne
    unfold parseComponentSink
    rw [hs]
    simp [hne]
  · intro hs
    unfold parseComponentSink
    rw [hs]
  · intro hs ha
    unfold parseComponentSink
    rw [hs, ha]
    simp
  · intro a hs ha hf
    unfold parseComponentSink
    simp [hs, ha, hf]
  · intro a cschemas hs ha hf hh
    unfold parseComponentSink
    simp [hs, ha, hf, hh]
  · intro a cschemas hs ha hf hh
    unfold parseComponentSink
    simp [hs, ha, hf, hh]
  · intro id md v d e hfresh hparse
    unfold SchemaUpdater.add_subscription
    rw [hfresh, hparse]
    simp
  · intro id md v d e s0 hfresh hparse1 hparse2
    unfold SchemaUpdater.add_subscription
    rw [hfresh, hparse1, hparse2]
    simp

theorem C7_subscription_uri_rules_witness :
    parseKafkaSource ⟨some ("mqtt"), some ("c"), ("/t")⟩ =
      Except.error (SchemaError.subscription (SubscriptionError.invalidSourceScheme
        ⟨some ("mqtt"), some ("c"), ("/t")⟩)) ∧
    parseKafkaSource ⟨some ("kafka"), some ("cluster"), ("/topic")⟩ =
      Except.ok (Source.kafka ("cluster") ("topic") OrderingKeyFormat.default) :=
  ⟨(C7_subscription_uri_rules (SchemaUpdater.fromInfo witState)
      ⟨some ("mqtt"), some ("c"), ("/t")⟩ ⟨none, none, ("")⟩).1 ("mqtt") rfl (by decide),
    by
      have h := (C7_subscription_uri_rules (SchemaUpdater.fromInfo witState)
        ⟨some ("kafka"), some ("cluster"), ("/topic")⟩ ⟨none, none, ("")⟩).2.2.2.1
        ("cluster") rfl rfl
      exact h⟩

/-! ### Leadership state machine (worker partition leadership)

Handles to the invoker, shuffle, timer service, channels and networking
are capabilities whose use is recorded as an explicit call trace; the
environment fixes the outcome of each fallible external interaction. -/

/-- Timer key and value (restate_wal_protocol timer), payloads as Nat. -/
structure TimerKeyValue where
  key : Nat
  value : Nat
deriving DecidableEq, Repr

/-- Ingress invocation-response inner payload. -/
structure IngressResponsePayload where
  invocation_id : Option Nat
  body : Nat
deriving DecidableEq, Repr

/-- Ingress submit-notification inner payload. -/
structure SubmitNotificationPayload where
  original_invocation_id : Nat
  body : Nat
deriving DecidableEq, Repr

/-- Message sent to the ingress node. -/
inductive IngressMessage
  | invocationResponse (inner : IngressResponsePayload)
  | submittedInvocationNotification (inner : SubmitNotificationPayload)
deriving DecidableEq, Repr

/-- Action emitted by the partition state machine for the leadership layer
to execute. -/
inductive Action
  | invoke (invocation_id : Nat) (invocation_target : Nat) (invoke_input_journal : Nat)
  | newOutboxMessage (seq_number : Nat) (message : Nat)
  | registerTimer (timer_value : TimerKeyValue)
  | deleteTimer (timer_key : Nat)
  | ackStoredEntry (invocation_id : Nat) (entry_index : Nat)
  | forwardCompletion (invocation_id : Nat) (completion : Nat)
  | abortInvocation (invocation_id : Nat)
  | ingressResponse (target_node : Nat) (inner : IngressResponsePayload)
  | ingressSubmitNotification (target_node : Nat) (inner : SubmitNotificationPayload)
  | scheduleInvocationStatusCleanup (invocation_id : Nat) (retention : Nat)
deriving DecidableEq, Repr

/-- Action effect fed back to the processor (action_collector); the
scheduled cleanup timer is the one the leadership module produces, other
effects are opaque. -/
inductive ActionEffect
  | scheduleCleanupTimer (invocation_id : Nat) (retention : Nat)
  | other (payload : Nat)
deriving DecidableEq, Repr

/-- Follower state fields of the leadership machine. -/
structure FollowerState where
  partition_id : Nat
  num_timers_in_memory_limit : Option Nat
  channel_size : Nat
  partition_key_range : Nat × Nat
deriving DecidableEq, Repr

/-- Leader-only state fields; the timer service is embedded as its pending
timers keyed by timer key. -/
structure LeaderState where
  leader_epoch : Nat
  shuffle_task_id : Nat
  timer_service : List (Nat × TimerKeyValue)
deriving DecidableEq, Repr

/-- The leadership state machine: Follower or Leader. -/
inductive LeadershipState
  | follower (follower_state : FollowerState)
  | leader (follower_state : FollowerState) (leader_state : LeaderState)
deriving DecidableEq, Repr

/-- Environment fixing the outcome of external interactions: invoker
calls, task-center spawns, network sends, action-effects channel sends and
the action-effect handler. -/
structure Env where
  invokerOk : Bool
  spawnOk : Bool
  sendOk : Bool
  cleanupSendOk : Bool
  actionEffectHandlerOk : Bool
deriving DecidableEq, Repr

/-- Observable call to an external collaborator. -/
inductive ExtCall
  | invokerInvoke (ple : Nat × Nat) (invocation_id : Nat) (target : Nat) (journal : Nat)
  | shuffleHint (seq_number : Nat) (message : Nat)
  | timerAdd (timer_value : TimerKeyValue)
  | timerRemove (timer_key : Nat)
  | invokerNotifyStoredAck (ple : Nat × Nat) (invocation_id : Nat) (entry_index : Nat)
  | invokerNotifyCompletion (ple : Nat × Nat) (invocation_id : Nat) (completion : Nat)
  | invokerAbortInvocation (ple : Nat × Nat) (invocation_id : Nat)
  | spawnIngressTask (target_node : Nat) (message : IngressMessage)
  | networkSend (target_node : Nat) (message : IngressMessage) (delivered : Bool)
  | actionEffectSend (effect : ActionEffect) (accepted : Bool)
  | actionEffectHandle (effects : List ActionEffect)
deriving DecidableEq, Repr

/-- Leadership error taxonomy. -/
inductive LeadershipError
  | invoker
  | storage
  | shutdown
deriving DecidableEq, Repr

/-- LeadershipState::send_ingress_message: the send runs in a detached
spawned task; a spawn failure (task center shutting down) is logged and
the message silently dropped, a send failure inside the spawned task is
logged and the message dropped; the caller always receives Ok. -/
def send_ingress_message (env : Env) (target_node : Nat)
    (invocation_id : Option Nat) (ingress_message : IngressMessage) :
    Except LeadershipError Unit × List ExtCall :=
  if env.spawnOk then
    (Except.ok (),
      [ExtCall.spawnIngressTask target_node ingress_message,
       ExtCall.networkSend target_node ingress_message env.sendOk])
  else
    (Except.ok (), [])

/-- LeadershipState::handle_action: dispatch of one action as Leader. -/
def handle_action (env : Env) (action : Action)
    (partition_leader_epoch : Nat × Nat) (leader_state : LeaderState) :
    LeaderState × Except LeadershipError Unit × List ExtCall :=
  match action with
  | .invoke invocation_id target journal =>
    (leader_state,
      if env.invokerOk then Except.ok () else Except.error LeadershipError.invoker,
      [ExtCall.invokerInvoke partition_leader_epoch invocation_id target journal])
  | .newOutboxMessage seq_number message =>
    (leader_state, Except.ok (), [ExtCall.shuffleHint seq_number message])
  | .registerTimer timer_value =>
    ({ leader_state with
        timer_service := Map.insert leader_state.timer_service timer_value.key timer_value },
      Except.ok (), [ExtCall.timerAdd timer_value])
  | .deleteTimer timer_key =>
    ({ leader_state with
        timer_service := Map.erase leader_state.timer_service timer_key },
      Except.ok (), [ExtCall.timerRemove timer_key])
  | .ackStoredEntry invocation_id entry_index =>
    (leader_state,
      if env.invokerOk then Except.ok () else Except.error LeadershipError.invoker,
      [ExtCall.invokerNotifyStoredAck partition_leader_epoch invocation_id entry_index])
  | .forwardCompletion invocation_id completion =>
    (leader_state,
      if env.invokerOk then Except.ok () else Except.error LeadershipError.invoker,
      [ExtCall.invokerNotifyCompletion partition_leader_epoch invocation_id completion])
  | .abortInvocation invocation_id =>
    (leader_state,
      if env.invokerOk then Except.ok () else Except.error LeadershipError.invoker,
      [ExtCall.invokerAbortInvocation partition_leader_epoch invocation_id])
  | .ingressResponse target_node inner =>
    ((leader_state),
      (send_ingress_message env target_node inner.invocation_id
        (IngressMessage.invocationResponse inner)).1,
      (send_ingress_message env target_node inner.invocation_id
        (IngressMessage.invocationResponse inner)).2)
  | .ingressSubmitNotification target_node inner =>
    ((leader_state),
      (send_ingress_message env target_node (some inner.original_invocation_id)
        (IngressMessage.submittedInvocationNotification inner)).1,
      (send_ingress_message env target_node (some inner.original_invocation_id)
        (IngressMessage.submittedInvocationNotification inner)).2)
  | .scheduleInvocationStatusCleanup invocation_id retention =>
    (leader_state, Except.ok (),
      [ExtCall.actionEffectSend (ActionEffect.scheduleCleanupTimer invocation_id retention)
        env.cleanupSendOk])

/-- Leader-side loop of handle_actions: actions are applied in order, the
first invoker error aborts the loop and is returned. -/
def handle_actions_leader (env : Env) (partition_leader_epoch : Nat × Nat) :
    LeaderState → List Action →
    LeaderState × Except LeadershipError Unit × List ExtCall
  | ls, [] => (ls, Except.ok (), [])
  | ls, a :: rest =>
    match handle_action env a partition_leader_epoch ls with
    | (ls2, Except.ok _, calls) =>
      match handle_actions_leader env partition_leader_epoch ls2 rest with
      | (ls3, r, calls2) => (ls3, r, calls ++ calls2)
    | (ls2, Except.error e, calls) => (ls2, Except.error e, calls)

/-- LeadershipState::handle_actions: as Follower there is nothing to do,
as Leader every action is dispatched. -/
def LeadershipState.handle_actions (env : Env) :
    LeadershipState → List Action →
    LeadershipState × Except LeadershipError Unit × List ExtCall
  | .follower fs, _ => (.follower fs, Except.ok (), [])
  | .leader fs ls, actions =>
    match handle_actions_leader env (fs.partition_id, ls.leader_epoch) ls actions with
    | (ls2, r, calls) => (.leader fs ls2, r, calls)

/-- LeadershipState::handle_action_effect: as Leader forward the effects
to the ActionEffectHandler, as Follower ignore them. -/
def LeadershipState.handle_action_effect (env : Env) :
    LeadershipState → List ActionEffect →
    LeadershipState × Except Unit Unit × List ExtCall
  | .follower fs, _ => (.follower fs, Except.ok (), [])
  | .leader fs ls, effects =>
    (.leader fs ls,
      if env.actionEffectHandlerOk then Except.ok () else Except.error (),
      [ExtCall.actionEffectHandle effects])

/-- C8: in the Follower state the leadership machine is inert: for every
environment and iterator of actions handle_actions returns Ok without any
call to the invoker, shuffle hint, timer service, channel or networking
(the call trace is empty), and for every collection of effects
handle_action_effect returns Ok and forwards nothing; the Follower state
is unchanged by both calls. -/
theorem C8_follower_inert (env : Env) (fs : FollowerState) (actions : List Action)
    (effects : List ActionEffect) :
    LeadershipState.handle_actions env (LeadershipState.follower fs) actions =
      (LeadershipState.follower fs, Except.ok (), []) ∧
    LeadershipState.handle_action_effect env (LeadershipState.follower fs) effects =
      (LeadershipState.follower fs, Except.ok (), []) :=
  ⟨rfl, rfl⟩

/-- C9: send_ingress_message returns Ok in every outcome: when the task
center refuses the spawn (shutdown) nothing is sent and no error is
surfaced, and when the spawned network send fails the message is dropped
with no error; consequently handle_actions dispatching an IngressResponse
or an IngressSubmitNotification on a Leader returns Ok in every
environment. -/
theorem C9_ingress_best_effort (env : Env) (fs : FollowerState) (ls : LeaderState)
    (node : Nat) (iid : Option Nat) (msg : IngressMessage)
    (inner : IngressResponsePayload) (inner2 : SubmitNotificationPayload) :
    (send_ingress_message env node iid msg).1 = Except.ok () ∧
    (send_ingress_message env node iid msg).2 =
      (if env.spawnOk then
        [ExtCall.spawnIngressTask node msg, ExtCall.networkSend node msg env.sendOk]
       else []) ∧
    (LeadershipState.handle_actions env (LeadershipState.leader fs ls)
      [Action.ingressResponse node inner]).2.1 = Except.ok () ∧
    (LeadershipState.handle_actions env (LeadershipState.leader fs ls)
      [Action.ingressSubmitNotification node inner2]).2.1 = Except.ok () := by
  cases hsp : env.spawnOk <;>
    simp [send_ingress_message, LeadershipState.handle_actions, handle_actions_leader,
      handle_action, hsp]

end Restate
